import Mathlib

/-!
Verification development for the import/export and value-encoding layer of
the crm_local repository (src/importers.py, src/app.py).

Python strings are modelled as `List Char`; Python dictionaries as
association lists; fallible Python functions (those that raise
ValueError/HTTPException) as `Except (List Char) _`.  The Excel workbook
layer (openpyxl) is abstracted away: a sheet is a header row of cells plus
a list of data rows of cells, exactly the values `iter_rows` hands to the
parsers.  Python floats are modelled as exact decimal numbers
`m / 10^k` (an integer mantissa and a count of fractional digits), which
is faithful for the short decimal values these codecs handle, and
numeric-string parsing/printing is modelled at the decimal level.
-/

deriving instance DecidableEq for Except

set_option maxRecDepth 16000

namespace Crm

/-- Python strings, modelled as lists of characters. -/
abbrev Str := List Char

/-- Characters of a Lean string literal, used to write `Str` constants. -/
def chars (s : String) : Str := s.data

/-- Whitespace characters recognised by Python's `str.strip()` (the ones
relevant to this code base: space, tab, LF, VT, FF, CR, NBSP). -/
def isPyWS (c : Char) : Bool :=
  c = ' ' || c = Char.ofNat 9 || c = Char.ofNat 10 || c = Char.ofNat 11 ||
  c = Char.ofNat 12 || c = Char.ofNat 13 || c = Char.ofNat 160

/-- `str.lstrip()` with the default whitespace set. -/
def lstripWS (s : Str) : Str := s.dropWhile isPyWS

/-- `str.rstrip()` with the default whitespace set. -/
def rstripWS (s : Str) : Str := (s.reverse.dropWhile isPyWS).reverse

/-- `str.strip()` with the default whitespace set. -/
def stripWS (s : Str) : Str := rstripWS (lstripWS s)

/-- `str.lstrip(cs)` for an explicit character set. -/
def lstripSet (cs : List Char) (s : Str) : Str := s.dropWhile (fun c => cs.contains c)

/-- `str.rstrip(cs)` for an explicit character set. -/
def rstripSet (cs : List Char) (s : Str) : Str :=
  (s.reverse.dropWhile (fun c => cs.contains c)).reverse

/-- `str.rstrip(c)` for a single character. -/
def rstripChar (c : Char) (s : Str) : Str := rstripSet [c] s

/-- Python `.lower()` on the characters this repository's inputs use
(ASCII letters plus the accented Latin capitals appearing in French
headers/values). -/
def pyLowerChar (c : Char) : Char :=
  if 65 ≤ c.toNat ∧ c.toNat ≤ 90 then Char.ofNat (c.toNat + 32)
  else if c = 'É' then 'é' else if c = 'È' then 'è' else if c = 'Ê' then 'ê'
  else if c = 'Ë' then 'ë' else if c = 'À' then 'à' else if c = 'Â' then 'â'
  else if c = 'Î' then 'î' else if c = 'Ï' then 'ï' else if c = 'Ô' then 'ô'
  else if c = 'Ù' then 'ù' else if c = 'Û' then 'û' else if c = 'Ü' then 'ü'
  else if c = 'Ç' then 'ç' else c

/-- Python `.lower()` over a string. -/
def pyLower (s : Str) : Str := s.map pyLowerChar

/-- Model of `unicodedata.normalize("NFKD", ·)` followed by dropping
combining marks, on the Latin characters this repository's inputs use:
each accented letter decomposes to its base letter plus a combining mark,
so the composition maps it to the bare base letter and leaves everything
else unchanged. -/
def stripAccent (c : Char) : Char :=
  if c = 'é' ∨ c = 'è' ∨ c = 'ê' ∨ c = 'ë' then 'e'
  else if c = 'à' ∨ c = 'â' ∨ c = 'ä' then 'a'
  else if c = 'î' ∨ c = 'ï' then 'i'
  else if c = 'ô' ∨ c = 'ö' then 'o'
  else if c = 'ù' ∨ c = 'û' ∨ c = 'ü' then 'u'
  else if c = 'ç' then 'c' else c

/-- Splitting a string on one character (Python `value.split(c)`). -/
def splitOnChar (c : Char) : Str → List Str
  | [] => [[]]
  | x :: xs =>
    if x = c then [] :: splitOnChar c xs
    else
      match splitOnChar c xs with
      | [] => [[x]]
      | h :: t => (x :: h) :: t

/-- Python `str.split()` with no argument: split on whitespace runs,
discarding empty pieces. -/
def splitWS : Str → List Str
  | [] => []
  | x :: xs =>
    if isPyWS x then splitWS xs
    else
      match splitWS xs with
      | [] => [[x]]
      | h :: t =>
        match xs with
        | [] => [[x]]
        | y :: _ => if isPyWS y then [x] :: h :: t else (x :: h) :: t

/-- Interleave a separator between list elements (Python `sep.join(parts)`). -/
def joinSep (sep : Str) : List Str → Str
  | [] => []
  | [x] => x
  | x :: xs => x ++ sep ++ joinSep sep xs

/-- Whether `p` is a prefix of `s` (Python `str.startswith`). -/
def hasPfx : Str → Str → Bool
  | [], _ => true
  | _ :: _, [] => false
  | p :: ps, s :: ss => p = s && hasPfx ps ss

/-- Whether `p` is a suffix of `s` (Python `str.endswith`). -/
def hasSfx (p s : Str) : Bool := hasPfx p.reverse s.reverse

/-- Decimal digit characters. -/
def isDigitC (c : Char) : Bool := 48 ≤ c.toNat && c.toNat ≤ 57

/-- A plain header character: lowercase ASCII letter, digit or
underscore.  Headers made only of these are fixed points of
`_normalize_header`. -/
def isPlainC (c : Char) : Bool :=
  (97 ≤ c.toNat && c.toNat ≤ 122) || isDigitC c || c = '_'

/-- The character for one decimal digit. -/
def digitChar (d : ℕ) : Char := Char.ofNat (48 + d)

/-- Little-endian base-10 digits with explicit fuel (so that it reduces
by iota in the kernel; `fuel ≥ n` makes it agree with `Nat.digits 10`). -/
def natDigitsRev : ℕ → ℕ → List ℕ
  | 0, _ => []
  | _ + 1, 0 => []
  | f + 1, n + 1 => ((n + 1) % 10) :: natDigitsRev f ((n + 1) / 10)

/-- Decimal rendering of a natural number (Python `str(n)` for `n ≥ 0`). -/
def natRender (n : ℕ) : Str :=
  if n = 0 then [digitChar 0] else ((natDigitsRev n n).map digitChar).reverse

/-- Decimal rendering of an integer (Python `str(n)`). -/
def intRender (i : ℤ) : Str :=
  if i < 0 then '-' :: natRender i.natAbs else natRender i.natAbs

/-- Value of a big-endian digit string (helper for `int(str)`). -/
def digitsVal (s : Str) : ℕ := s.foldl (fun a c => 10 * a + (c.toNat - 48)) 0

/-- Parse a nonempty all-digit string to a natural number; `none` otherwise. -/
def parseNatDigits (s : Str) : Option ℕ :=
  if s ≠ [] ∧ s.all isDigitC then some (digitsVal s) else none

/-- Model of Python `int(s)` on decimal strings: surrounding whitespace,
an optional sign, then digits. -/
def pyParseInt (s0 : Str) : Option ℤ :=
  match stripWS s0 with
  | [] => none
  | a :: t =>
    if a = '-' then (parseNatDigits t).map (fun n => -(n : ℤ))
    else if a = '+' then (parseNatDigits t).map (fun n => (n : ℤ))
    else (parseNatDigits (a :: t)).map (fun n => (n : ℤ))

def alook {α β : Type} [DecidableEq α] : List (α × β) → α → Option β
  | [], _ => none
  | (a, b) :: t, k => if a = k then some b else alook t k

/-- Association-list overwrite-or-append, modelling Python `dict[k] = v`
(an existing key keeps its position; a new key is appended, matching
insertion order). -/
def aset {α β : Type} [DecidableEq α] : List (α × β) → α → β → List (α × β)
  | [], k, v => [(k, v)]
  | (a, b) :: t, k, v => if a = k then (k, v) :: t else (a, b) :: aset t k v

/-- One entry of `FREQUENCY_UNITS` in src/app.py. -/
structure FreqUnitInfo where
  selectLabel : Str
  singularLabel : Str
  pluralLabel : Str
  usePluralForOne : Bool
deriving DecidableEq

/-- `FREQUENCY_UNITS` from src/app.py. -/
def frequencyUnits : List (Str × FreqUnitInfo) :=
  [(chars "months", ⟨chars "mois", chars "mois", chars "mois", false⟩),
   (chars "years", ⟨chars "années", chars "an", chars "ans", true⟩)]

/-- One entry of `PREDEFINED_FREQUENCIES` in src/app.py. -/
structure FreqDef where
  label : Str
  interval : Option ℤ
  unit : Option Str
deriving DecidableEq

/-- `PREDEFINED_FREQUENCIES` from src/app.py. -/
def predefinedFrequencies : List (Str × FreqDef) :=
  [(chars "contrat_annuel",
      ⟨chars "Contrat de maintenance annuel", some 1, some (chars "years")⟩),
   (chars "contrat_semestriel",
      ⟨chars "Contrat de maintenance semestriel", some 6, some (chars "months")⟩),
   (chars "contrat_trimestriel",
      ⟨chars "Contrat de maintenance trimestriel", some 3, some (chars "months")⟩),
   (chars "contrat_bimestriel",
      ⟨chars "Contrat de maintenance bimestriel", some 2, some (chars "months")⟩),
   (chars "contrat_mensuel",
      ⟨chars "Contrat de maintenance mensuel", some 1, some (chars "months")⟩),
   (chars "prestation_ponctuelle",
      ⟨chars "Prestation ponctuelle", none, none⟩)]

/-- `CUSTOM_INTERVAL_VALUE` from src/app.py. -/
def customIntervalValue : Str := chars "custom_interval"

/-- `INTERVAL_PREFIX` from src/app.py (renamed for Lean). -/
def intervalPfx : Str := chars "interval:"

/-- `_parse_interval_frequency` from src/app.py: decode a custom token's
embedded interval and unit; `(none, none)` for non-custom-shaped tokens. -/
def parseIntervalFrequency (value : Str) : Option ℤ × Option Str :=
  if ¬ hasPfx intervalPfx value then (none, none)
  else
    match splitOnChar ':' value with
    | [_, u, istr] =>
      match pyParseInt istr with
      | some i => (some i, some u)
      | none => (none, none)
    | _ => (none, none)

/-- `_format_interval_label` from src/app.py. -/
def formatIntervalLabel (interval : ℤ) (unit : Str) : Str :=
  match alook frequencyUnits unit with
  | none => chars "Tous les " ++ intRender interval ++ [' '] ++ unit
  | some info =>
    let unitLabel :=
      if interval = 1 ∧ info.usePluralForOne then info.pluralLabel
      else if interval = 1 then info.singularLabel
      else info.pluralLabel
    if interval = 1 then chars "Tous les " ++ unitLabel
    else chars "Tous les " ++ intRender interval ++ [' '] ++ unitLabel

/-- Truthiness of an optional string (Python: `None` and `""` are falsy). -/
def optStrFalsy : Option Str → Bool
  | none => true
  | some s => s.isEmpty

/-- Truthiness of an optional integer (Python: `None` and `0` are falsy). -/
def optIntTruthy : Option ℤ → Bool
  | none => false
  | some n => decide (n ≠ 0)

/-- `_frequency_label_from_details` from src/app.py. -/
def frequencyLabelFromDetails (frequencyValue : Str) (interval : Option ℤ)
    (unit : Option Str) : Str :=
  match alook predefinedFrequencies frequencyValue with
  | some p => p.label
  | none =>
    let r :=
      if interval = none ∨ optStrFalsy unit then
        let p := parseIntervalFrequency frequencyValue
        ((if interval = none then p.1 else interval),
         (if optStrFalsy unit then p.2 else unit))
      else (interval, unit)
    match r with
    | (some i, some u) =>
      if i ≠ 0 ∧ (alook frequencyUnits u).isSome then formatIntervalLabel i u
      else frequencyValue
    | _ => frequencyValue

/-- `_resolve_frequency` from src/app.py; `HTTPException(400, msg)` is
modelled as `Except.error msg`. -/
def resolveFrequency (selection : Str) (customInterval : Option Str)
    (customUnit : Option Str) : Except Str (Str × Option ℤ × Option Str) :=
  if selection = customIntervalValue then
    if optStrFalsy customInterval then
      .error (chars "Veuillez renseigner l'intervalle de la fréquence")
    else if (match customUnit with
             | none => true
             | some u => (alook frequencyUnits u).isNone) then
      .error (chars "Unité de fréquence inconnue")
    else
      match pyParseInt (customInterval.getD []) with
      | none => .error (chars "L'intervalle doit être un nombre entier")
      | some i =>
        if i < 1 then .error (chars "L'intervalle doit être supérieur ou égal à 1")
        else if 120 < i then .error (chars "L'intervalle ne peut pas dépasser 120")
        else .ok (intervalPfx ++ customUnit.getD [] ++ [':'] ++ intRender i,
                  some i, customUnit)
  else
    match alook predefinedFrequencies selection with
    | none => .error (chars "Fréquence inconnue")
    | some p => .ok (selection, p.interval, p.unit)

inductive Cell where
  | none
  | str (s : Str)
  | int (n : ℤ)
  | float (m : ℤ) (k : ℕ)
deriving DecidableEq

/-- Strip trailing decimal zeros from the representation `m / 10^k`. -/
def decReduce : ℤ → ℕ → ℤ × ℕ
  | m, 0 => (m, 0)
  | m, k + 1 => if (10 : ℤ) ∣ m then decReduce (m / 10) k else (m, k + 1)

/-- Whether `m / 10^k` is an integer (Python `float.is_integer`). -/
def decIsInt (m : ℤ) (k : ℕ) : Bool := decide ((10 ^ k : ℤ) ∣ m)

/-- The integer value of an integral `m / 10^k` (Python `int(float)`). -/
def decToIntVal (m : ℤ) (k : ℕ) : ℤ := m / 10 ^ k

/-- Render `n` as exactly `w` digits with leading zeros (`n < 10^w`). -/
def padDigits (w : ℕ) (n : ℕ) : Str :=
  List.replicate (w - (natRender n).length) '0' ++ natRender n

/-- Python `str(float)` on the decimal `m / 10^k`: the shortest decimal
representation, always with a decimal point (`str(4.0) = "4.0"`). -/
def pyFloatRender (m : ℤ) (k : ℕ) : Str :=
  let r := decReduce m k
  if r.2 = 0 then intRender r.1 ++ chars ".0"
  else
    (if r.1 < 0 then ['-'] else []) ++ natRender (r.1.natAbs / 10 ^ r.2) ++
      ['.'] ++ padDigits r.2 (r.1.natAbs % 10 ^ r.2)

/-- `_coerce_value` from src/importers.py. -/
def coerceValue : Cell → Option Str
  | .none => Option.none
  | .str s =>
    let cleaned := stripWS s
    if cleaned.isEmpty then Option.none else some cleaned
  | .int n => some (intRender n)
  | .float m k =>
    if decIsInt m k then some (intRender (decToIntVal m k))
    else some (rstripChar '.' (rstripChar '0' (pyFloatRender m k)))

/-- The apostrophe character, used when quoting offending values in
error messages. -/
def apos : Char := Char.ofNat 39

/-- Quote a value the way the source's f-strings do. -/
def quoteS (s : Str) : Str := apos :: s ++ [apos]

/-- `_normalize_header` from src/importers.py, applied to a non-None
value: strip, lower, NFKD + drop combining marks, replace the separators
hyphen/period/apostrophe/NBSP with spaces, split on whitespace and join
with underscores. -/
def normalizeHeader (s : Str) : Str :=
  let v := pyLower (stripWS s)
  let v := v.map stripAccent
  let v := v.map (fun c =>
    if c = '-' ∨ c = '.' ∨ c = apos ∨ c = Char.ofNat 160 then ' ' else c)
  joinSep ['_'] (splitWS v)

/-- `_normalize_header` applied to a raw header cell value (`None` gives
`""`, other values go through `str(...)` first). -/
def normalizeHeaderCell : Cell → Str
  | .none => []
  | .str s => normalizeHeader s
  | .int n => normalizeHeader (intRender n)
  | .float m k => normalizeHeader (pyFloatRender m k)

/-- `EXPECTED_FIELDS` from src/importers.py.  The source keeps it as a
set; it is listed here in sorted order, the order in which the source
reports missing columns. -/
def expectedFields : List Str := [chars "company_name", chars "name"]

/-- `COLUMN_ALIASES` from src/importers.py. -/
def columnAliases : List (Str × Str) :=
  [(chars "company_name", chars "company_name"),
   (chars "entreprise", chars "company_name"),
   (chars "nom_entreprise", chars "company_name"),
   (chars "societe", chars "company_name"),
   (chars "raison_sociale", chars "company_name"),
   (chars "name", chars "name"),
   (chars "client", chars "name"),
   (chars "nom_client", chars "name"),
   (chars "contact", chars "name"),
   (chars "email", chars "email"),
   (chars "mail", chars "email"),
   (chars "courriel", chars "email"),
   (chars "phone", chars "phone"),
   (chars "telephone", chars "phone"),
   (chars "tel", chars "phone"),
   (chars "technician_name", chars "technician_name"),
   (chars "technicien", chars "technician_name"),
   (chars "technicien_referent", chars "technician_name"),
   (chars "referent", chars "technician_name"),
   (chars "billing_address", chars "billing_address"),
   (chars "adresse", chars "billing_address"),
   (chars "adresse_facturation", chars "billing_address"),
   (chars "depannage", chars "depannage"),
   (chars "type_depannage", chars "depannage"),
   (chars "astreinte", chars "astreinte"),
   (chars "tags", chars "tags"),
   (chars "tag", chars "tags"),
   (chars "status", chars "status"),
   (chars "statut", chars "status")]

/-- `CONTACT_FIELD_ALIASES` from src/importers.py. -/
def contactFieldAliases : List (Str × Str) :=
  [(chars "name", chars "name"),
   (chars "nom", chars "name"),
   (chars "prenom", chars "name"),
   (chars "nom_complet", chars "name"),
   (chars "email", chars "email"),
   (chars "mail", chars "email"),
   (chars "courriel", chars "email"),
   (chars "phone", chars "phone"),
   (chars "telephone", chars "phone"),
   (chars "tel", chars "phone"),
   (chars "mobile", chars "phone"),
   (chars "description", chars "description"),
   (chars "notes", chars "description"),
   (chars "commentaire", chars "description")]

/-- `STATUS_ALIASES` from src/importers.py. -/
def statusAliases : List (Str × Str) :=
  [(chars "actif", chars "actif"),
   (chars "active", chars "actif"),
   (chars "oui", chars "actif"),
   (chars "true", chars "actif"),
   (chars "1", chars "actif"),
   (chars "inactif", chars "inactif"),
   (chars "inactive", chars "inactif"),
   (chars "non", chars "inactif"),
   (chars "false", chars "inactif"),
   (chars "0", chars "inactif")]

/-- The distinct values of `STATUS_ALIASES` (`STATUS_ALIASES.values()`). -/
def statusValues : List Str := [chars "actif", chars "inactif"]

/-- `DEPANNAGE_CHOICES` from src/importers.py. -/
def depannageChoices : List Str :=
  [chars "refacturable", chars "non_refacturable"]

/-- `ASTREINTE_CHOICES` from src/importers.py. -/
def astreinteChoices : List Str :=
  [chars "incluse_non_refacturable", chars "incluse_refacturable",
   chars "pas_d_astreinte"]

/-- Membership of a string in a list (Python `in` on a set of strings). -/
def smem (l : List Str) (s : Str) : Bool := l.any (fun x => x = s)

/-- A character legal in the second group of `CONTACT_HEADER_RE`
(`[a-z0-9_]`). -/
def isContactFieldChar (c : Char) : Bool :=
  (97 ≤ c.toNat && c.toNat ≤ 122) || isDigitC c || c = '_'

/-- `CONTACT_HEADER_RE.match` from src/importers.py: the pattern
`contact_?(\d+)_([a-z0-9_]+)` matched at the start of the string,
returning the numeric group index and the subfield key. -/
def matchContactHeader (h : Str) : Option (ℕ × Str) :=
  if hasPfx (chars "contact") h then
    let rest0 := h.drop 7
    let rest := match rest0 with
      | '_' :: r => r
      | r => r
    let ds := rest.takeWhile isDigitC
    if ds.isEmpty then Option.none
    else
      match rest.dropWhile isDigitC with
      | '_' :: fs =>
        let field := fs.takeWhile isContactFieldChar
        if field.isEmpty then Option.none else some (digitsVal ds, field)
      | _ => Option.none
  else Option.none

/-- The result of resolving one header (`HeaderType` in the source:
`""`, a field name, or a `("contact", index, field)` tuple). -/
inductive HeaderR where
  | unresolved
  | field (f : Str)
  | contact (i : ℕ) (f : Str)
deriving DecidableEq

/-- `_resolve_header` from src/importers.py. -/
def resolveHeader (h : Str) : HeaderR :=
  match alook columnAliases h with
  | some f => .field f
  | Option.none =>
    match matchContactHeader h with
    | some (i, key) =>
      match alook contactFieldAliases key with
      | some f => .contact i f
      | Option.none => .unresolved
    | Option.none => .unresolved

/-- Python truthiness of a resolved header (`""` is falsy, a field name
or a tuple is truthy). -/
def headerTruthy : HeaderR → Bool
  | .unresolved => false
  | _ => true

/-- Truthiness of an optional string value stored in a record
(Python: `None` and `""` are falsy). -/
def truthyS : Option Str → Bool
  | Option.none => false
  | some s => !s.isEmpty

/-- `record.get(k)` on the field map, collapsing a stored `None` and a
missing key the way Python's `get` default does. -/
def dget (fs : List (Str × Option Str)) (k : Str) : Option Str :=
  match alook fs k with
  | some v => v
  | Option.none => Option.none

/-- In-progress state of one data row in `parse_clients_excel`. -/
structure RowState where
  fields : List (Str × Option Str)
  contacts : List (ℕ × List (Str × Str))
  empty : Bool
deriving DecidableEq

/-- `record.setdefault("__contacts__", {}).setdefault(index, {})[field] = value`. -/
def updContact (cm : List (ℕ × List (Str × Str))) (i : ℕ) (f v : Str) :
    List (ℕ × List (Str × Str)) :=
  aset cm i (aset ((alook cm i).getD []) f v)

/-- Processing of one populated cell in the client row loop
(src/importers.py, `parse_clients_excel`). -/
def processClientCell (rowIndex : ℕ) (st : RowState) (hdr : HeaderR)
    (raw : Cell) : Except Str RowState :=
  match hdr with
  | .unresolved => .ok st
  | .contact i f =>
    match coerceValue raw with
    | Option.none => .ok st
    | some value =>
      .ok { st with empty := false, contacts := updContact st.contacts i f value }
  | .field key =>
    match coerceValue raw with
    | Option.none => .ok st
    | some value =>
      if key = chars "status" then
        let normalized := normalizeHeader value
        let stored : Option Str :=
          match alook statusAliases normalized with
          | some a => some a
          | Option.none =>
            if normalized.isEmpty then Option.none else some normalized
        .ok { st with empty := false, fields := aset st.fields key stored }
      else if key = chars "depannage" then
        let normalized := normalizeHeader value
        if ¬ normalized.isEmpty ∧ ¬ smem depannageChoices normalized then
          .error (chars "Ligne " ++ natRender rowIndex ++
            chars ": valeur de dépannage invalide " ++ quoteS value ++ chars ".")
        else if ¬ normalized.isEmpty then
          .ok { st with empty := false, fields := aset st.fields key (some normalized) }
        else .ok { st with empty := false }
      else if key = chars "astreinte" then
        let normalized := normalizeHeader value
        if ¬ normalized.isEmpty ∧ ¬ smem astreinteChoices normalized then
          .error (chars "Ligne " ++ natRender rowIndex ++
            chars ": valeur d\x27astreinte invalide " ++ quoteS value ++ chars ".")
        else if ¬ normalized.isEmpty then
          .ok { st with empty := false, fields := aset st.fields key (some normalized) }
        else .ok { st with empty := false }
      else
        .ok { st with empty := false, fields := aset st.fields key (some value) }

/-- The `for idx, raw_value in enumerate(row)` loop of one client row. -/
def clientCellsLoop (headers : List HeaderR) (rowIndex : ℕ) :
    List Cell → ℕ → RowState → Except Str RowState
  | [], _, st => .ok st
  | c :: cs, idx, st => do
    let st' ← processClientCell rowIndex st (headers.getD idx .unresolved) c
    clientCellsLoop headers rowIndex cs (idx + 1) st'

/-- Insertion of one contact bucket into a key-sorted list
(`sorted(contacts_map.items())`). -/
def insertSortedC (p : ℕ × List (Str × Str)) :
    List (ℕ × List (Str × Str)) → List (ℕ × List (Str × Str))
  | [] => [p]
  | q :: t => if p.1 ≤ q.1 then p :: q :: t else q :: insertSortedC p t

/-- `sorted(contacts_map.items())`: sort the contact buckets by group
index. -/
def sortByKey (l : List (ℕ × List (Str × Str))) :
    List (ℕ × List (Str × Str)) :=
  l.foldr insertSortedC []

/-- The contact-assembly loop at the end of each client row: a bucket
without a name is an error if it has an email or phone, and is skipped
otherwise. -/
def assembleContacts (rowIndex : ℕ) :
    List (ℕ × List (Str × Str)) → Except Str (List (List (Str × Str)))
  | [] => .ok []
  | (order, data) :: t =>
    if ¬ truthyS (alook data (chars "name")) then
      if truthyS (alook data (chars "email")) ∨ truthyS (alook data (chars "phone")) then
        .error (chars "Ligne " ++ natRender rowIndex ++ chars ": le contact " ++
          natRender order ++ chars " doit avoir un nom.")
      else assembleContacts rowIndex t
    else do
      let rest ← assembleContacts rowIndex t
      .ok (data :: rest)

/-- One parsed client row: the 1-based sheet row number (`__row__`), the
scalar fields, and the nested contact sub-records. -/
structure ClientRow where
  row : ℕ
  fields : List (Str × Option Str)
  contacts : List (List (Str × Str))
deriving DecidableEq

/-- The checks `parse_clients_excel` runs on a finished row state:
blank-row skip, required-field check, status check, contact assembly. -/
def finishClientRow (rowIndex : ℕ) (st : RowState) :
    Except Str (Option ClientRow) :=
  if st.empty then .ok Option.none
  else
    let missing := expectedFields.filter (fun f => ¬ truthyS (dget st.fields f))
    if ¬ missing.isEmpty then
      .error (chars "Ligne " ++ natRender rowIndex ++
        chars ": valeurs manquantes pour " ++ joinSep (chars ", ") missing)
    else
      let status := dget st.fields (chars "status")
      if truthyS status ∧ ¬ smem statusValues (status.getD []) then
        .error (chars "Ligne " ++ natRender rowIndex ++ chars ": statut inconnu " ++
          quoteS (status.getD []) ++ chars ". Valeurs acceptées: actif, inactif.")
      else do
        let contacts ← assembleContacts rowIndex (sortByKey st.contacts)
        pure (some ⟨rowIndex, st.fields, contacts⟩)

/-- Full processing of one data row of the client sheet. -/
def parseClientRow (headers : List HeaderR) (rowIndex : ℕ)
    (cells : List Cell) : Except Str (Option ClientRow) := do
  let st ← clientCellsLoop headers rowIndex cells 0 ⟨[], [], true⟩
  finishClientRow rowIndex st

/-- The resolved header row of the client sheet. -/
def clientHeaders (headerCells : List Cell) : List HeaderR :=
  headerCells.map (fun c => resolveHeader (normalizeHeaderCell c))

/-- The required client fields not covered by the resolved headers
(`EXPECTED_FIELDS - {...}`, in sorted order). -/
def clientMissing (headers : List HeaderR) : List Str :=
  expectedFields.filter (fun f =>
    ¬ smem (headers.filterMap (fun h =>
      match h with
      | .field g => some g
      | _ => Option.none)) f)

/-- The `enumerate(sheet.iter_rows(min_row=2), start=2)` loop of
`parse_clients_excel`; the first failing row aborts the parse. -/
def clientRowsLoop (headers : List HeaderR) :
    List (List Cell) → ℕ → Except Str (List ClientRow)
  | [], _ => .ok []
  | r :: rs, idx => do
    let rec? ← parseClientRow headers idx r
    let rest ← clientRowsLoop headers rs (idx + 1)
    match rec? with
    | some record => .ok (record :: rest)
    | Option.none => .ok rest

/-- `parse_clients_excel` from src/importers.py, starting from the header
row and data rows that openpyxl yields for the workbook bytes. -/
def parseClientsExcel (headerCells : List Cell) (rows : List (List Cell)) :
    Except Str (List ClientRow) :=
  let headers := clientHeaders headerCells
  if ¬ headers.any headerTruthy then
    .error (chars "Le fichier ne contient pas d\x27en-têtes valides.")
  else
    let missing := clientMissing headers
    if ¬ missing.isEmpty then
      .error (chars "Colonnes obligatoires manquantes: " ++
        joinSep (chars ", ") missing)
    else clientRowsLoop headers rows 2

/-! ### Numeric parsing helpers (src/importers.py) -/

/-- Unsigned decimal notation accepted by Python `float(str)`:
`digits`, `digits.`, `.digits` or `digits.digits`.  Exponent and
underscore notations and the non-finite spellings are outside the model
(inputs using them are treated as unparsable). -/
def parseUnsignedDec (s : Str) : Option ℚ :=
  let ip := s.takeWhile isDigitC
  match s.drop ip.length with
  | [] => if ip.isEmpty then Option.none else some ((digitsVal ip : ℚ))
  | '.' :: t =>
    let fp := t.takeWhile isDigitC
    if ¬ (t.drop fp.length).isEmpty then Option.none
    else if ip.isEmpty && fp.isEmpty then Option.none
    else some ((digitsVal ip : ℚ) + (digitsVal fp : ℚ) / (10 : ℚ) ^ fp.length)
  | _ => Option.none

/-- Model of Python `float(s)` on plain decimal notation: surrounding
whitespace, an optional sign, then an unsigned decimal.  The value is
the exact decimal (binary floating-point rounding is not modelled; it
is invisible to the short decimal values these codecs render). -/
def pyParseFloat (s0 : Str) : Option ℚ :=
  match stripWS s0 with
  | '-' :: t => (parseUnsignedDec t).map (fun q => -q)
  | '+' :: t => parseUnsignedDec t
  | s => parseUnsignedDec s

/-- `_parse_positive_int` from src/importers.py. -/
def parsePositiveInt (value : Str) (rowIndex : ℕ) (fieldName : Str) :
    Except Str ℤ :=
  let msg := chars "Ligne " ++ natRender rowIndex ++ chars ": valeur de " ++
    fieldName ++ chars " invalide " ++ quoteS value ++ chars "."
  let parsed : Option ℤ :=
    if value.any (fun c => c = '.') then
      match pyParseFloat value with
      | some q => if q.den = 1 then some q.num else Option.none
      | Option.none => Option.none
    else pyParseInt value
  match parsed with
  | Option.none => .error msg
  | some q => if q < 1 then .error msg else .ok q

/-- `BOOLEAN_TRUE_VALUES` from src/importers.py. -/
def booleanTrueValues : List Str :=
  [chars "oui", chars "o", chars "yes", chars "y", chars "true",
   chars "vrai", chars "1"]

/-- `BOOLEAN_FALSE_VALUES` from src/importers.py. -/
def booleanFalseValues : List Str :=
  [chars "non", chars "no", chars "n", chars "false", chars "faux", chars "0"]

/-- `_parse_boolean_flag` from src/importers.py. -/
def parseBooleanFlag (value : Str) (rowIndex : ℕ) (fieldName : Str) :
    Except Str Bool :=
  let normalized := normalizeHeader value
  if smem booleanTrueValues normalized then .ok true
  else if smem booleanFalseValues normalized then .ok false
  else
    .error (chars "Ligne " ++ natRender rowIndex ++ chars ": valeur de " ++
      fieldName ++ chars " invalide " ++ quoteS value ++ chars ".")

/-! ### Filter-lines sheet parser (src/importers.py) -/

/-- `FILTER_EXPECTED_FIELDS`, listed in sorted order (the order the
source reports missing fields after `sorted(...)`). -/
def filterExpectedFields : List Str :=
  [chars "equipment", chars "format_type", chars "site"]

/-- `FILTER_COLUMN_ALIASES` from src/importers.py. -/
def filterColumnAliases : List (Str × Str) :=
  [(chars "site", chars "site"),
   (chars "lieu", chars "site"),
   (chars "equipement", chars "equipment"),
   (chars "equipment", chars "equipment"),
   (chars "machine", chars "equipment"),
   (chars "format", chars "format_type"),
   (chars "format_type", chars "format_type"),
   (chars "type", chars "format_type"),
   (chars "efficacite", chars "efficiency"),
   (chars "efficiency", chars "efficiency"),
   (chars "classe", chars "efficiency"),
   (chars "dimensions", chars "dimensions"),
   (chars "dimension", chars "dimensions"),
   (chars "taille", chars "dimensions"),
   (chars "quantite", chars "quantity"),
   (chars "quantity", chars "quantity"),
   (chars "qte", chars "quantity"),
   (chars "commande", chars "order_week"),
   (chars "semaine_commande", chars "order_week"),
   (chars "order_week", chars "order_week"),
   (chars "semaine", chars "order_week"),
   (chars "inclus", chars "included_in_contract"),
   (chars "inclus_contrat", chars "included_in_contract"),
   (chars "included", chars "included_in_contract"),
   (chars "included_in_contract", chars "included_in_contract"),
   (chars "etat_commande", chars "ordered"),
   (chars "statut_commande", chars "ordered"),
   (chars "commande_effectuee", chars "ordered"),
   (chars "ordered", chars "ordered"),
   (chars "poches", chars "pocket_count"),
   (chars "nb_poches", chars "pocket_count"),
   (chars "pocket_count", chars "pocket_count")]

/-- `FILTER_FORMAT_LOOKUP` from src/importers.py. -/
def filterFormatLookup : List (Str × Str) :=
  [(chars "cousus_sur_fil", chars "cousus_sur_fil"),
   (chars "format_cousus_sur_fil", chars "cousus_sur_fil"),
   (chars "cadre", chars "cadre"),
   (chars "format_cadre", chars "cadre"),
   (chars "multi_diedre", chars "multi_diedre"),
   (chars "format_multi_diedre", chars "multi_diedre"),
   (chars "poche", chars "poche"),
   (chars "format_poche", chars "poche")]

/-- `_resolve_filter_header` from src/importers.py (`""` = unresolved). -/
def resolveFilterHeader (h : Str) : Str :=
  (alook filterColumnAliases h).getD []

/-- Python `.upper()` on the characters this repository's inputs use. -/
def pyUpperChar (c : Char) : Char :=
  if 97 ≤ c.toNat ∧ c.toNat ≤ 122 then Char.ofNat (c.toNat - 32) else c

/-- Python `.upper()` over a string (week codes are ASCII). -/
def pyUpper (s : Str) : Str := s.map pyUpperChar

/-- A value stored in a filter-line record: string, integer or boolean. -/
inductive FVal where
  | s (v : Str)
  | i (n : ℤ)
  | b (v : Bool)
deriving DecidableEq

/-- Python truthiness of an optional filter-record value. -/
def truthyF : Option FVal → Bool
  | Option.none => false
  | some (.s v) => !v.isEmpty
  | some (.i n) => decide (n ≠ 0)
  | some (.b v) => v

/-- Removal of a key (Python `dict.pop(k, None)`). -/
def apop {α β : Type} [DecidableEq α] : List (α × β) → α → List (α × β)
  | [], _ => []
  | (a, b) :: t, k => if a = k then t else (a, b) :: apop t k

/-- In-progress state of one filter-line row. -/
structure FRowState where
  fields : List (Str × FVal)
  empty : Bool
deriving DecidableEq

/-- Processing of one cell in the filter-line row loop. -/
def processFilterCell (rowIndex : ℕ) (st : FRowState) (hdr : Str)
    (raw : Cell) : Except Str FRowState :=
  if hdr.isEmpty then .ok st
  else
    match coerceValue raw with
    | Option.none => .ok st
    | some value =>
      if hdr = chars "format_type" then
        let normalized := normalizeHeader value
        match alook filterFormatLookup normalized with
        | Option.none =>
          .error (chars "Ligne " ++ natRender rowIndex ++
            chars ": format de filtre inconnu " ++ quoteS value ++ chars ".")
        | some resolved =>
          .ok ⟨aset st.fields hdr (.s resolved), false⟩
      else if hdr = chars "quantity" then
        match parsePositiveInt value rowIndex (chars "quantité") with
        | .error e => .error e
        | .ok q => .ok ⟨aset st.fields hdr (.i q), false⟩
      else if hdr = chars "pocket_count" then
        match parsePositiveInt value rowIndex (chars "nombre de poches") with
        | .error e => .error e
        | .ok q => .ok ⟨aset st.fields hdr (.i q), false⟩
      else if hdr = chars "order_week" then
        .ok ⟨aset st.fields hdr (.s (pyUpper (stripWS value))), false⟩
      else if hdr = chars "included_in_contract" then
        match parseBooleanFlag value rowIndex (chars "inclus au contrat") with
        | .error e => .error e
        | .ok v => .ok ⟨aset st.fields hdr (.b v), false⟩
      else if hdr = chars "ordered" then
        match parseBooleanFlag value rowIndex (chars "commandé") with
        | .error e => .error e
        | .ok v => .ok ⟨aset st.fields hdr (.b v), false⟩
      else .ok ⟨aset st.fields hdr (.s value), false⟩

/-- The cell loop of one filter-line row. -/
def filterCellsLoop (headers : List Str) (rowIndex : ℕ) :
    List Cell → ℕ → FRowState → Except Str FRowState
  | [], _, st => .ok st
  | c :: cs, idx, st => do
    let st' ← processFilterCell rowIndex st (headers.getD idx []) c
    filterCellsLoop headers rowIndex cs (idx + 1) st'

/-- One parsed filter-line row. -/
structure FilterRow where
  row : ℕ
  fields : List (Str × FVal)
deriving DecidableEq

/-- `record.get(k)` on a filter record. -/
def fget (fs : List (Str × FVal)) (k : Str) : Option FVal := alook fs k

/-- The end-of-row checks of `parse_filter_lines_excel`: required
fields, the quantity/flag defaults, then the pocket-count rules. -/
def finishFilterRow (rowIndex : ℕ) (st : FRowState) :
    Except Str (Option FilterRow) :=
  if st.empty then .ok Option.none
  else
    let missing := filterExpectedFields.filter
      (fun f => ¬ truthyF (fget st.fields f))
    if ¬ missing.isEmpty then
      .error (chars "Ligne " ++ natRender rowIndex ++
        chars ": champ(s) obligatoire(s) manquant(s): " ++
        joinSep (chars ", ") missing)
    else
      let fs := st.fields
      let fs := if (alook fs (chars "quantity")).isNone then
          aset fs (chars "quantity") (.i 1) else fs
      let fs := if (alook fs (chars "included_in_contract")).isNone then
          aset fs (chars "included_in_contract") (.b false) else fs
      let fs := if (alook fs (chars "ordered")).isNone then
          aset fs (chars "ordered") (.b false) else fs
      if fget fs (chars "format_type") = some (.s (chars "poche")) ∧
          (alook fs (chars "pocket_count")).isNone then
        .error (chars "Ligne " ++ natRender rowIndex ++
          chars ": indiquez le nombre de poches pour un filtre au format poche.")
      else
        let fs := if ¬ (fget fs (chars "format_type") =
            some (.s (chars "poche"))) then
          apop fs (chars "pocket_count") else fs
        .ok (some ⟨rowIndex, fs⟩)

/-- The data-row loop of `parse_filter_lines_excel`. -/
def filterRowsLoop (headers : List Str) :
    List (List Cell) → ℕ → Except Str (List FilterRow)
  | [], _ => .ok []
  | r :: rs, idx => do
    let rec? ← (do
      let st ← filterCellsLoop headers idx r 0 ⟨[], true⟩
      finishFilterRow idx st)
    let rest ← filterRowsLoop headers rs (idx + 1)
    match rec? with
    | some record => .ok (record :: rest)
    | Option.none => .ok rest

/-- `parse_filter_lines_excel` from src/importers.py, starting from the
header and data rows that openpyxl yields. -/
def parseFilterLinesExcel (headerCells : List Cell)
    (rows : List (List Cell)) : Except Str (List FilterRow) :=
  let headers := headerCells.map (fun c => resolveFilterHeader (normalizeHeaderCell c))
  if ¬ headers.any (fun h => !h.isEmpty) then
    .error (chars "Le fichier ne contient pas d\x27en-têtes valides.")
  else
    let missing := filterExpectedFields.filter
      (fun f => ¬ smem (headers.filter (fun h => !h.isEmpty)) f)
    if ¬ missing.isEmpty then
      .error (chars "Colonnes obligatoires manquantes: " ++
        joinSep (chars ", ") missing)
    else filterRowsLoop headers rows 2

/-! ### Workload cell codec (src/importers.py, src/app.py) -/

/-- The floor of a rational, written executably (`den` is positive, so
Euclidean division of `num` by `den` is floor division). -/
def ratFloor (x : ℚ) : ℤ := x.num / x.den

/-- Round half to even to an integer (the rounding of Python's `round`
and of `format(..., ".2f")`). -/
def rhe (x : ℚ) : ℤ :=
  let f := ratFloor x
  let r := x - f
  if r < 1 / 2 then f
  else if 1 / 2 < r then f + 1
  else if f % 2 = 0 then f else f + 1

/-- Python `round(x, k)` on the exact decimal model. -/
def roundTo (k : ℕ) (x : ℚ) : ℚ := (rhe (x * 10 ^ k) : ℚ) / 10 ^ k

/-- Fixed-width decimal rendering of the integer `v` scaled by `10^k`
(`k ≥ 1`): sign, integer digits, point, exactly `k` fractional digits. -/
def decRenderFull (v : ℤ) (k : ℕ) : Str :=
  (if v < 0 then ['-'] else []) ++ natRender (v.natAbs / 10 ^ k) ++
    '.' :: padDigits k (v.natAbs % 10 ^ k)

/-- Minimal decimal rendering of `m / 10^k`: trailing fractional zeros
dropped, integers without a decimal point. -/
def decRenderMinimal (m : ℤ) (k : ℕ) : Str :=
  let r := decReduce m k
  if r.2 = 0 then intRender r.1
  else decRenderFull r.1 r.2

/-- Python `f"{x:.2f}"` on the exact decimal model. -/
def formatFixed2 (x : ℚ) : Str := decRenderFull (rhe (x * 100)) 2

/-- `_format_hours` from src/importers.py.  The source first raises for
NaN/infinite input; those values do not exist in the exact model.  The
final Python `text or str(rounded)` fallback never fires because the
fixed-2 rendering always keeps the integer digits. -/
def formatHours (value : ℚ) : Str :=
  let rounded := roundTo 4 value
  if rounded.den = 1 then intRender rounded.num
  else rstripChar '.' (rstripChar '0' (formatFixed2 rounded))

/-- `openpyxl.utils.get_column_letter` (bijective base 26), with fuel. -/
def columnLetterAux : ℕ → ℕ → Str
  | 0, _ => []
  | _, 0 => []
  | f + 1, n => columnLetterAux f ((n - 1) / 26) ++ [Char.ofNat (65 + (n - 1) % 26)]

/-- `get_column_letter` used by `_format_workload_error`. -/
def columnLetter (n : ℕ) : Str := columnLetterAux n n

/-- `_format_workload_error` from src/importers.py. -/
def formatWorkloadError (value : Str) (rowIndex colIndex : ℕ) : Str :=
  chars "Ligne " ++ natRender rowIndex ++ chars ", colonne " ++
    columnLetter colIndex ++ chars ": valeur " ++ quoteS value ++
    chars " invalide. Utilisez bad, warn ou ok:4."

/-- `_parse_hours_value` from src/importers.py. -/
def parseHoursValue (raw : Str) (rowIndex colIndex : ℕ) : Except Str Str :=
  let c1 := pyLower (stripWS raw)
  let c2 :=
    if hasSfx (chars "heures") c1 then c1.take (c1.length - 6)
    else if hasSfx (chars "hours") c1 then c1.take (c1.length - 5)
    else if hasSfx (chars "heure") c1 then c1.take (c1.length - 5)
    else if hasSfx (chars "hour") c1 then c1.take (c1.length - 4)
    else if hasSfx (chars "h") c1 then c1.take (c1.length - 1)
    else c1
  let c3 := (stripWS c2).map (fun ch => if ch = ',' then '.' else ch)
  if c3.isEmpty then .error (formatWorkloadError raw rowIndex colIndex)
  else
    match pyParseFloat c3 with
    | Option.none => .error (formatWorkloadError raw rowIndex colIndex)
    | some value =>
      if value ≤ 0 then .error (formatWorkloadError raw rowIndex colIndex)
      else .ok (formatHours value)

/-- `WORKLOAD_STATE_ALIASES` from src/importers.py. -/
def workloadStateAliases : List (Str × Str) :=
  [(chars "warn", chars "warn"),
   (chars "warning", chars "warn"),
   (chars "orange", chars "warn"),
   (chars "attention", chars "warn"),
   (chars "a", chars "warn"),
   (chars "bad", chars "bad"),
   (chars "rouge", chars "bad"),
   (chars "red", chars "bad"),
   (chars "critique", chars "bad"),
   (chars "r", chars "bad"),
   (chars "ok", chars "ok"),
   (chars "vert", chars "ok"),
   (chars "green", chars "ok"),
   (chars "g", chars "ok")]

/-- Split at the first occurrence of `c` (Python `s.split(c, 1)` when it
returns two pieces; `none` when `c` does not occur). -/
def splitFirst (c : Char) : Str → Option (Str × Str)
  | [] => Option.none
  | x :: xs =>
    if x = c then some ([], xs)
    else (splitFirst c xs).map (fun p => (x :: p.1, p.2))

/-- The regex `^(\d+(?:[.,]\d+)?)\s*(h|heures|hours|heure|hour)?$` of
`_normalize_workload_cell_value`, returning the numeric group's value
(`float` of the group with `,` read as `.`). -/
def matchNumeric (s : Str) : Option ℚ :=
  let ds := s.takeWhile isDigitC
  if ds.isEmpty then Option.none
  else
    let r1 := s.drop ds.length
    let p : ℚ × Str :=
      match r1 with
      | c :: t =>
        if (c = '.' ∨ c = ',') ∧ ¬ (t.takeWhile isDigitC).isEmpty then
          ((digitsVal ds : ℚ) +
            (digitsVal (t.takeWhile isDigitC) : ℚ) /
              (10 : ℚ) ^ (t.takeWhile isDigitC).length,
           t.drop (t.takeWhile isDigitC).length)
        else ((digitsVal ds : ℚ), r1)
      | [] => ((digitsVal ds : ℚ), [])
    let tail := p.2.dropWhile isPyWS
    if tail = [] ∨ tail = chars "h" ∨ tail = chars "heures" ∨
        tail = chars "hours" ∨ tail = chars "heure" ∨ tail = chars "hour" then
      some p.1
    else Option.none

/-- A raw workload cell as handed over by openpyxl: empty, NaN, string,
integer, or a float modelled as the exact decimal `m / 10^k`. -/
inductive WRaw where
  | none
  | nan
  | str (s : Str)
  | int (n : ℤ)
  | float (m : ℤ) (k : ℕ)
deriving DecidableEq

/-- `str(raw_value)` for the non-empty raw kinds. -/
def wrawStr : WRaw → Str
  | .str s => s
  | .int n => intRender n
  | .float m k => pyFloatRender m k
  | _ => []

/-- `_normalize_workload_cell_value` from src/importers.py. -/
def normalizeWorkloadCell (raw : WRaw) (rowIndex colIndex : ℕ) :
    Except Str (Option Str) :=
  match raw with
  | .none => .ok Option.none
  | .nan => .ok Option.none
  | raw =>
    let text := stripWS (wrawStr raw)
    if text.isEmpty then .ok Option.none
    else
      let lower := pyLower text
      match alook workloadStateAliases lower with
      | some st => .ok (some st)
      | Option.none =>
        if lower = chars "4" ∨ lower = chars "4h" then .ok (some (chars "warn"))
        else if lower = chars "8" ∨ lower = chars "8h" then .ok (some (chars "bad"))
        else if hasPfx (chars "ok") lower then
          let remainder := lstripSet [' ', ':', '_', '-'] (lower.drop 2)
          if remainder.isEmpty then .ok (some (chars "ok"))
          else
            match parseHoursValue remainder rowIndex colIndex with
            | .error e => .error e
            | .ok h => .ok (some (chars "ok" ++ ':' :: h))
        else
          match (match splitFirst ':' lower with
                 | some q =>
                   match alook workloadStateAliases (stripWS q.1) with
                   | some st => some st
                   | Option.none => Option.none
                 | Option.none => Option.none) with
          | some st =>
            if st = chars "ok" then
              match parseHoursValue (stripWS ((splitFirst ':' lower).getD
                  ([], [])).2) rowIndex colIndex with
              | .error e => .error e
              | .ok h => .ok (some (chars "ok" ++ ':' :: h))
            else .ok (some st)
          | Option.none =>
            match matchNumeric lower with
            | some number =>
              if number ≤ 0 then
                .error (formatWorkloadError text rowIndex colIndex)
              else if number = 4 then .ok (some (chars "warn"))
              else if number = 8 then .ok (some (chars "bad"))
              else .ok (some (chars "ok" ++ ':' :: formatHours number))
            | Option.none => .error (formatWorkloadError text rowIndex colIndex)

/-- The value written to an export cell: a number or a string. -/
inductive ExportVal where
  | i (n : ℤ)
  | s (v : Str)
deriving DecidableEq

/-- `_export_value` from src/app.py (`_build_workload_plan_workbook`):
`bad` is exported as the number 8, `warn` as 4, anything else verbatim. -/
def exportValue (value : Str) : ExportVal :=
  if value = chars "bad" then .i 8
  else if value = chars "warn" then .i 4
  else .s value

/-- Reading an exported cell back: a numeric cell comes back as an
integer raw value, a string cell as a string raw value. -/
def exportRaw : ExportVal → WRaw
  | .i n => .int n
  | .s v => .str v

/-! ### Client import route (src/app.py, `import_clients`) -/

/-- `STATUS_OPTIONS` keys from src/app.py. -/
def statusOptions : List Str := [chars "actif", chars "inactif"]

/-- `_status_to_bool` from src/app.py (`HTTPException` modelled as
`Except.error`). -/
def statusToBool (v : Option Str) : Except Str (Option Bool) :=
  match v with
  | Option.none => .ok Option.none
  | some s =>
    if smem statusOptions s then .ok (some (decide (s = chars "actif")))
    else .error (chars "Statut inconnu")

/-- The body of the per-row loop of `import_clients`: the company-name
check and status conversion are deterministic; the database calls
(`ensure_entreprise`, `create_client`) are the external collaborator
`create`, whose failure is an opaque error message. -/
def importClientRow (create : ClientRow → Except Str Unit) (r : ClientRow) :
    Except Str Unit :=
  if ¬ truthyS (dget r.fields (chars "company_name")) then
    .error (chars "Nom d\x27entreprise manquant")
  else
    match (if truthyS (dget r.fields (chars "status")) then
             statusToBool (dget r.fields (chars "status"))
           else .ok Option.none) with
    | .error e => .error e
    | .ok _ => create r

/-- The import outcome handed to `_store_import_report`. -/
structure Outcome where
  created : ℕ
  total : ℕ
  errors : List Str
deriving DecidableEq

/-- Whether an external call succeeded. -/
def isOkE : Except Str Unit → Bool
  | .ok _ => true
  | .error _ => false

/-- The message of a failed external call (`str(exc)`). -/
def errMsg : Except Str Unit → Str
  | .ok _ => []
  | .error e => e

/-- One step of the `import_clients` success/error accumulation:
on success bump the counter, on failure append the row-tagged message. -/
def importStep (create : ClientRow → Except Str Unit)
    (acc : ℕ × List Str) (r : ClientRow) : ℕ × List Str :=
  match importClientRow create r with
  | .ok _ => (acc.1 + 1, acc.2)
  | .error e =>
    (acc.1, acc.2 ++ [chars "Ligne " ++ natRender r.row ++ chars " : " ++ e])

/-- `import_clients` from src/app.py (after the filename/extension
guards): parse the sheet, then create each row, collecting row-tagged
errors without aborting the batch. -/
def importClients (headerCells : List Cell) (rows : List (List Cell))
    (create : ClientRow → Except Str Unit) : Outcome :=
  match parseClientsExcel headerCells rows with
  | .error e => ⟨0, 0, [e]⟩
  | .ok rs =>
    let res := rs.foldl (importStep create) ((0 : ℕ), ([] : List Str))
    ⟨res.1, rs.length, res.2⟩


/-! ### Lemmas and claim theorems -/

theorem natDigitsRev_eq_digits (fuel : ℕ) :
    ∀ n, n ≤ fuel → natDigitsRev fuel n = Nat.digits 10 n := by
  induction fuel with
  | zero =>
    intro n hn
    interval_cases n
    simp [natDigitsRev]
  | succ f ih =>
    intro n hn
    cases n with
    | zero => simp [natDigitsRev]
    | succ m =>
      rw [show natDigitsRev (f + 1) (m + 1) =
          ((m + 1) % 10) :: natDigitsRev f ((m + 1) / 10) from rfl]
      rw [ih ((m + 1) / 10) (by omega)]
      rw [Nat.digits_def' (b := 10) (by norm_num) (Nat.succ_pos m)]

theorem natRender_digits (n : ℕ) :
    natRender n =
      if n = 0 then [digitChar 0] else ((Nat.digits 10 n).map digitChar).reverse := by
  unfold natRender
  by_cases h0 : n = 0
  · simp [h0]
  · rw [if_neg h0, if_neg h0, natDigitsRev_eq_digits n n le_rfl]

theorem digitChar_toNat {d : ℕ} (hd : d < 10) : (digitChar d).toNat = 48 + d := by
  interval_cases d <;> decide

theorem isDigitC_digitChar {d : ℕ} (hd : d < 10) : isDigitC (digitChar d) = true := by
  interval_cases d <;> decide

theorem foldr_digitChar (l : List ℕ) (h : ∀ d ∈ l, d < 10) :
    (l.map digitChar).foldr (fun c a => 10 * a + (c.toNat - 48)) 0 =
      Nat.ofDigits 10 l := by
  induction l with
  | nil => simp [Nat.ofDigits]
  | cons d t ih =>
    have hd : d < 10 := h d (List.mem_cons_self d t)
    have ht : ∀ x ∈ t, x < 10 := fun x hx => h x (List.mem_cons_of_mem d hx)
    simp only [List.map_cons, List.foldr_cons, ih ht, Nat.ofDigits_cons,
      digitChar_toNat hd]
    omega

theorem digitsVal_natRender (n : ℕ) : digitsVal (natRender n) = n := by
  by_cases h0 : n = 0
  · subst h0; decide
  · have hlt : ∀ d ∈ Nat.digits 10 n, d < 10 :=
      fun d hd => Nat.digits_lt_base (by norm_num) hd
    rw [natRender_digits]
    unfold digitsVal
    rw [if_neg h0, List.foldl_reverse]
    have := foldr_digitChar (Nat.digits 10 n) hlt
    simpa [Nat.ofDigits_digits] using this

theorem natRender_ne_nil (n : ℕ) : natRender n ≠ [] := by
  rw [natRender_digits]
  by_cases h0 : n = 0
  · simp [h0]
  · rw [if_neg h0]
    intro h
    rw [List.reverse_eq_nil_iff, List.map_eq_nil_iff] at h
    exact Nat.digits_ne_nil_iff_ne_zero.mpr h0 h

theorem natRender_all_digits (n : ℕ) : (natRender n).all isDigitC = true := by
  rw [natRender_digits]
  by_cases h0 : n = 0
  · simp [h0]; decide
  · rw [if_neg h0]
    rw [List.all_eq_true]
    intro c hc
    rw [List.mem_reverse, List.mem_map] at hc
    obtain ⟨d, hd, rfl⟩ := hc
    exact isDigitC_digitChar (Nat.digits_lt_base (by norm_num) hd)

theorem parseNatDigits_natRender (n : ℕ) : parseNatDigits (natRender n) = some n := by
  unfold parseNatDigits
  rw [if_pos ⟨natRender_ne_nil n, natRender_all_digits n⟩, digitsVal_natRender]

theorem dropWhile_eq_self_of_all {p : Char → Bool} {s : Str}
    (h : ∀ c ∈ s, p c = false) : s.dropWhile p = s := by
  cases s with
  | nil => rfl
  | cons a t => simp [List.dropWhile_cons, h a (List.mem_cons_self a t)]

theorem stripWS_eq_self {s : Str} (h : ∀ c ∈ s, isPyWS c = false) :
    stripWS s = s := by
  unfold stripWS lstripWS rstripWS
  rw [dropWhile_eq_self_of_all h,
    dropWhile_eq_self_of_all (fun c hc => h c (List.mem_reverse.mp hc)),
    List.reverse_reverse]

theorem isPyWS_digit {c : Char} (h : isDigitC c = true) : isPyWS c = false := by
  have hc : 48 ≤ c.toNat ∧ c.toNat ≤ 57 := by
    simpa [isDigitC] using h
  unfold isPyWS
  simp only [Bool.or_eq_false_iff, decide_eq_false_iff_not]
  refine ⟨⟨⟨⟨⟨⟨?_, ?_⟩, ?_⟩, ?_⟩, ?_⟩, ?_⟩, ?_⟩ <;>
    · intro he
      rw [he] at hc
      revert hc
      decide

theorem pyParseInt_natRender (n : ℕ) : pyParseInt (natRender n) = some (n : ℤ) := by
  unfold pyParseInt
  have hall : (natRender n).all isDigitC = true := natRender_all_digits n
  rw [List.all_eq_true] at hall
  rw [stripWS_eq_self (fun c hc => isPyWS_digit (hall c hc))]
  have hne := natRender_ne_nil n
  cases hR : natRender n with
  | nil => exact absurd hR hne
  | cons a t =>
    have ha : isDigitC a = true := by
      have := hall a (by rw [hR]; exact List.mem_cons_self a t)
      exact this
    have hne45 : a ≠ '-' ∧ a ≠ '+' := by
      unfold isDigitC at ha
      simp only [Bool.and_eq_true, decide_eq_true_eq] at ha
      constructor <;>
        · intro he
          subst he
          revert ha
          decide
    have hparse : parseNatDigits (a :: t) = some n := by
      rw [← hR]; exact parseNatDigits_natRender n
    simp only [if_neg hne45.1, if_neg hne45.2, hparse, Option.map_some]
    rfl

theorem hasPfx_append (p rest : Str) : hasPfx p (p ++ rest) = true := by
  induction p with
  | nil => rfl
  | cons a t ih => simp [hasPfx, ih]

theorem splitOnChar_of_not_mem {c : Char} {xs : Str} (h : ∀ x ∈ xs, x ≠ c) :
    splitOnChar c xs = [xs] := by
  induction xs with
  | nil => rfl
  | cons a t ih =>
    have ha : a ≠ c := h a (List.mem_cons_self a t)
    have ht : ∀ x ∈ t, x ≠ c := fun x hx => h x (List.mem_cons_of_mem a hx)
    simp [splitOnChar, ha, ih ht]

theorem splitOnChar_append {c : Char} {xs : Str} (ys : Str)
    (h : ∀ x ∈ xs, x ≠ c) :
    splitOnChar c (xs ++ c :: ys) = xs :: splitOnChar c ys := by
  induction xs with
  | nil => simp [splitOnChar]
  | cons a t ih =>
    have ha : a ≠ c := h a (List.mem_cons_self a t)
    have ht : ∀ x ∈ t, x ≠ c := fun x hx => h x (List.mem_cons_of_mem a hx)
    simp only [List.cons_append, splitOnChar, if_neg ha, List.append_eq, ih ht]

theorem natRender_ne_colon (n : ℕ) : ∀ x ∈ natRender n, x ≠ ':' := by
  intro x hx he
  have hall := natRender_all_digits n
  rw [List.all_eq_true] at hall
  have := hall x hx
  rw [he] at this
  exact absurd this (by decide)

theorem intRender_of_pos {n : ℤ} (h : 0 ≤ n) : intRender n = natRender n.natAbs := by
  unfold intRender
  rw [if_neg (not_lt.mpr h)]

theorem isEmpty_eq_false_of_ne_nil {α : Type} {s : List α} (h : s ≠ []) :
    s.isEmpty = false := by
  cases s with
  | nil => exact absurd rfl h
  | cons a t => rfl

theorem pyParseInt_ne_nil {s : Str} {n : ℤ} (h : pyParseInt s = some n) : s ≠ [] := by
  rintro rfl
  rw [show pyParseInt [] = none from rfl] at h
  exact Option.noConfusion h

/-- C3: for every custom frequency resolution with unit in
months/years and an integer interval between 1 and 120, `_resolve_frequency`
produces the custom token `interval:<unit>:<n>`, and
`_parse_interval_frequency` applied to that token returns exactly the
`(interval, unit)` pair that produced it. -/
theorem custom_frequency_resolve_parse_roundtrip
    (u s : Str) (n : ℤ)
    (hu : u = chars "months" ∨ u = chars "years")
    (hp : pyParseInt s = some n) (h1 : 1 ≤ n) (h2 : n ≤ 120) :
    resolveFrequency customIntervalValue (some s) (some u) =
      .ok (intervalPfx ++ u ++ [':'] ++ intRender n, some n, some u) ∧
    parseIntervalFrequency (intervalPfx ++ u ++ [':'] ++ intRender n) =
      (some n, some u) := by
  have hs : s ≠ [] := pyParseInt_ne_nil hp
  have hunit : (alook frequencyUnits u).isNone = false := by
    rcases hu with rfl | rfl <;> decide
  constructor
  · unfold resolveFrequency
    rw [if_pos rfl]
    simp only [optStrFalsy, isEmpty_eq_false_of_ne_nil hs, if_neg Bool.false_ne_true,
      hunit, if_neg Bool.false_ne_true, Option.getD_some, hp]
    rw [if_neg (not_lt.mpr h1), if_neg (not_lt.mpr h2)]
  · unfold parseIntervalFrequency
    have hv : intervalPfx ++ u ++ [':'] ++ intRender n =
        intervalPfx ++ (u ++ [':'] ++ intRender n) := by
      simp [List.append_assoc]
    rw [if_neg (by rw [hv, hasPfx_append]; exact fun h => h rfl)]
    have hdig : ∀ x ∈ natRender n.natAbs, x ≠ ':' := natRender_ne_colon _
    have hsplit : splitOnChar ':' (intervalPfx ++ u ++ [':'] ++ intRender n) =
        [chars "interval", u, natRender n.natAbs] := by
      have hrender := intRender_of_pos (le_trans (by norm_num) h1)
      have hshape : intervalPfx ++ u ++ [':'] ++ intRender n =
          chars "interval" ++ ':' :: (u ++ ':' :: natRender n.natAbs) := by
        rw [hrender]
        show chars "interval:" ++ u ++ [':'] ++ natRender n.natAbs = _
        rw [show chars "interval:" = chars "interval" ++ [':'] from rfl]
        simp [List.append_assoc]
      rw [hshape,
        splitOnChar_append _ (by intro x hx he; revert hx; rw [he]; decide),
        splitOnChar_append _ (by
          intro x hx he
          rcases hu with rfl | rfl <;> (revert hx; rw [he]; decide)),
        splitOnChar_of_not_mem hdig]
    rw [hsplit]
    have hn : pyParseInt (natRender n.natAbs) = some n := by
      rw [pyParseInt_natRender]
      congr 1
      exact Int.natAbs_of_nonneg (le_trans (by norm_num) h1)
    simp only [hn]

theorem custom_frequency_roundtrip_witness :
    resolveFrequency customIntervalValue (some (chars "7")) (some (chars "months")) =
      .ok (intervalPfx ++ chars "months" ++ [':'] ++ intRender 7, some 7,
        some (chars "months")) ∧
    parseIntervalFrequency (intervalPfx ++ chars "months" ++ [':'] ++ intRender 7) =
      (some 7, some (chars "months")) :=
  custom_frequency_resolve_parse_roundtrip _ _ _ (Or.inl rfl) (by decide)
    (by decide) (by decide)

/-- C6: with the custom sentinel selected, `_resolve_frequency` rejects a
missing custom interval, a unit outside months/years, a non-integer
interval, and an out-of-range interval, each with its own user-facing
message, producing no token. -/
theorem custom_frequency_resolve_errors (s u : Str) (n : ℤ)
    (hu : (alook frequencyUnits u).isNone = false) :
    (resolveFrequency customIntervalValue none (some u) =
      .error (chars "Veuillez renseigner l\x27intervalle de la fréquence")) ∧
    (resolveFrequency customIntervalValue (some []) (some u) =
      .error (chars "Veuillez renseigner l\x27intervalle de la fréquence")) ∧
    (s ≠ [] → resolveFrequency customIntervalValue (some s) (some (chars "weeks")) =
      .error (chars "Unité de fréquence inconnue")) ∧
    (s ≠ [] → resolveFrequency customIntervalValue (some s) none =
      .error (chars "Unité de fréquence inconnue")) ∧
    (pyParseInt s = none → s ≠ [] →
      resolveFrequency customIntervalValue (some s) (some u) =
        .error (chars "L\x27intervalle doit être un nombre entier")) ∧
    (pyParseInt s = some n → n < 1 →
      resolveFrequency customIntervalValue (some s) (some u) =
        .error (chars "L\x27intervalle doit être supérieur ou égal à 1")) ∧
    (pyParseInt s = some n → 120 < n →
      resolveFrequency customIntervalValue (some s) (some u) =
        .error (chars "L\x27intervalle ne peut pas dépasser 120")) := by
  refine ⟨?_, ?_, ?_, ?_, ?_, ?_, ?_⟩
  · unfold resolveFrequency
    rw [if_pos rfl]
    rfl
  · unfold resolveFrequency
    rw [if_pos rfl]
    rfl
  · intro hs
    unfold resolveFrequency
    rw [if_pos rfl]
    simp only [optStrFalsy, isEmpty_eq_false_of_ne_nil hs, if_neg Bool.false_ne_true]
    rw [if_pos (by decide)]
  · intro hs
    unfold resolveFrequency
    rw [if_pos rfl]
    simp only [optStrFalsy, isEmpty_eq_false_of_ne_nil hs, if_neg Bool.false_ne_true]
    rw [if_pos (by trivial)]
  · intro hp hs
    unfold resolveFrequency
    rw [if_pos rfl]
    simp only [optStrFalsy, isEmpty_eq_false_of_ne_nil hs, if_neg Bool.false_ne_true,
      hu, if_neg Bool.false_ne_true, Option.getD_some, hp]
  · intro hp hlow
    have hs : s ≠ [] := pyParseInt_ne_nil hp
    unfold resolveFrequency
    rw [if_pos rfl]
    simp only [optStrFalsy, isEmpty_eq_false_of_ne_nil hs, if_neg Bool.false_ne_true,
      hu, if_neg Bool.false_ne_true, Option.getD_some, hp]
    rw [if_pos hlow]
  · intro hp hhigh
    have hs : s ≠ [] := pyParseInt_ne_nil hp
    unfold resolveFrequency
    rw [if_pos rfl]
    simp only [optStrFalsy, isEmpty_eq_false_of_ne_nil hs, if_neg Bool.false_ne_true,
      hu, if_neg Bool.false_ne_true, Option.getD_some, hp]
    rw [if_neg (by omega), if_pos hhigh]

theorem custom_frequency_errors_witness :
    (resolveFrequency customIntervalValue none (some (chars "months")) =
      .error (chars "Veuillez renseigner l\x27intervalle de la fréquence")) ∧
    (resolveFrequency customIntervalValue (some []) (some (chars "months")) =
      .error (chars "Veuillez renseigner l\x27intervalle de la fréquence")) ∧
    (chars "121" ≠ [] →
      resolveFrequency customIntervalValue (some (chars "121")) (some (chars "weeks")) =
        .error (chars "Unité de fréquence inconnue")) ∧
    (chars "121" ≠ [] →
      resolveFrequency customIntervalValue (some (chars "121")) none =
        .error (chars "Unité de fréquence inconnue")) ∧
    (pyParseInt (chars "121") = none → chars "121" ≠ [] →
      resolveFrequency customIntervalValue (some (chars "121")) (some (chars "months")) =
        .error (chars "L\x27intervalle doit être un nombre entier")) ∧
    (pyParseInt (chars "121") = some 121 → (121 : ℤ) < 1 →
      resolveFrequency customIntervalValue (some (chars "121")) (some (chars "months")) =
        .error (chars "L\x27intervalle doit être supérieur ou égal à 1")) ∧
    (pyParseInt (chars "121") = some 121 → (120 : ℤ) < 121 →
      resolveFrequency customIntervalValue (some (chars "121")) (some (chars "months")) =
        .error (chars "L\x27intervalle ne peut pas dépasser 120")) :=
  custom_frequency_resolve_errors (chars "121") (chars "months") 121 (by decide)

/-- C8: for every predefined frequency catalog key, the label produced by
`_frequency_label_from_details` is the catalog label, whatever
interval/unit hints accompany it. -/
theorem predefined_frequency_label_constant (k : Str) (d : FreqDef)
    (interval : Option ℤ) (unit : Option Str)
    (h : alook predefinedFrequencies k = some d) :
    frequencyLabelFromDetails k interval unit = d.label := by
  unfold frequencyLabelFromDetails
  rw [h]

/-! ### Client sheet parser (src/importers.py) -/

/-- A raw spreadsheet cell as handed over by `iter_rows`: empty, a string,
an integer, or a float.  A float is modelled as the exact decimal
`m / 10^k`, which matches the floats openpyxl produces for the short
decimal values this code handles. -/
theorem ebind_ok {α β : Type} (x : α) (f : α → Except Str β) :
    (Except.ok x >>= f) = f x := rfl

theorem ebind_err {α β : Type} (e : Str) (f : α → Except Str β) :
    ((Except.error e : Except Str α) >>= f) = .error e := rfl

theorem importFold_spec (create : ClientRow → Except Str Unit)
    (rs : List ClientRow) :
    ∀ (c : ℕ) (es : List Str),
      rs.foldl (importStep create) (c, es) =
        (c + (rs.filter (fun r => isOkE (importClientRow create r))).length,
         es ++ (rs.filter (fun r => !isOkE (importClientRow create r))).map
           (fun r => chars "Ligne " ++ natRender r.row ++ chars " : " ++
             errMsg (importClientRow create r))) := by
  induction rs with
  | nil => intro c es; simp
  | cons r t ih =>
    intro c es
    rw [List.foldl_cons]
    cases h : importClientRow create r with
    | ok u =>
      have hok : isOkE (importClientRow create r) = true := by rw [h]; rfl
      have hbad : ¬ ((!isOkE (importClientRow create r)) = true) := by
        rw [show (!isOkE (importClientRow create r)) = false by rw [hok]; rfl]
        exact Bool.false_ne_true
      rw [show importStep create (c, es) r = (c + 1, es) by
        unfold importStep; rw [h]]
      rw [ih (c + 1) es,
        @List.filter_cons_of_pos ClientRow
          (fun x => isOkE (importClientRow create x)) r t hok,
        @List.filter_cons_of_neg ClientRow
          (fun x => !isOkE (importClientRow create x)) r t hbad]
      simp only [List.length_cons, Prod.mk.injEq]
      exact ⟨by omega, trivial⟩
    | error e =>
      have hok : ¬ (isOkE (importClientRow create r) = true) := by
        rw [show isOkE (importClientRow create r) = false by rw [h]; rfl]
        exact Bool.false_ne_true
      have hbad : (!isOkE (importClientRow create r)) = true := by
        rw [show isOkE (importClientRow create r) = false by rw [h]; rfl]
        rfl
      have hmsg : errMsg (importClientRow create r) = e := by rw [h]; rfl
      rw [show importStep create (c, es) r =
          (c, es ++ [chars "Ligne " ++ natRender r.row ++ chars " : " ++ e]) by
        unfold importStep; rw [h]]
      rw [ih c (es ++ [chars "Ligne " ++ natRender r.row ++ chars " : " ++ e]),
        @List.filter_cons_of_neg ClientRow
          (fun x => isOkE (importClientRow create x)) r t hok,
        @List.filter_cons_of_pos ClientRow
          (fun x => !isOkE (importClientRow create x)) r t hbad]
      simp only [List.map_cons, hmsg, Prod.mk.injEq]
      exact ⟨trivial, by simp⟩

/-- C1 (amended): a failure of the external record-creation call is
row-scoped: the import outcome reports `created` equal to the number of
rows whose creation succeeded, `total` equal to the number of parsed
non-empty data rows, and one error string per failing row tagged
`Ligne <sheet row>` (sheet rows are numbered from 1 at the header, so
the first data row is row 2).  A row-scoped validation failure inside
`parse_clients_excel` (such as an invalid status value) instead aborts
the whole import, which reports `created = 0`, `total = 0` and the
single parser error. -/
theorem client_import_outcome_characterization
    (headerCells : List Cell) (rows : List (List Cell))
    (create : ClientRow → Except Str Unit) :
    (∀ e, parseClientsExcel headerCells rows = .error e →
      importClients headerCells rows create = ⟨0, 0, [e]⟩) ∧
    (∀ rs, parseClientsExcel headerCells rows = .ok rs →
      importClients headerCells rows create =
        ⟨(rs.filter (fun r => isOkE (importClientRow create r))).length,
         rs.length,
         (rs.filter (fun r => !isOkE (importClientRow create r))).map
           (fun r => chars "Ligne " ++ natRender r.row ++ chars " : " ++
             errMsg (importClientRow create r))⟩) := by
  constructor
  · intro e he
    unfold importClients
    rw [he]
  · intro rs hrs
    unfold importClients
    rw [hrs]
    simp only [importFold_spec create rs 0 [], Nat.zero_add, List.nil_append]

theorem client_import_outcome_witness :
    importClients
      [Cell.str (chars "Entreprise"), Cell.str (chars "Client")]
      [[Cell.str (chars "A1"), Cell.str (chars "B1")],
       [Cell.str (chars "A2"), Cell.str (chars "B2")],
       [Cell.str (chars "A3"), Cell.str (chars "B3")]]
      (fun r => if r.row = 3 then .error (chars "doublon") else .ok ()) =
      ⟨2, 3, [chars "Ligne 3 : doublon"]⟩ :=
  ((client_import_outcome_characterization
      [Cell.str (chars "Entreprise"), Cell.str (chars "Client")]
      [[Cell.str (chars "A1"), Cell.str (chars "B1")],
       [Cell.str (chars "A2"), Cell.str (chars "B2")],
       [Cell.str (chars "A3"), Cell.str (chars "B3")]]
      (fun r => if r.row = 3 then .error (chars "doublon") else .ok ())).2
    [⟨2, [(chars "company_name", some (chars "A1")),
          (chars "name", some (chars "B1"))], []⟩,
     ⟨3, [(chars "company_name", some (chars "A2")),
          (chars "name", some (chars "B2"))], []⟩,
     ⟨4, [(chars "company_name", some (chars "A3")),
          (chars "name", some (chars "B3"))], []⟩]
    (by decide)).trans (by decide)

/-- C1 counterexample: a 5-row client batch whose third data row carries
the invalid status value `maybe` does not yield `created=4, total=5`:
the parser raises on that row, so the import is rejected whole, with
`created=0, total=0` and the single error `Ligne 4: statut inconnu
...` (the third data row is sheet row 4). -/
theorem client_import_row_error_aborts_batch :
    importClients
      [Cell.str (chars "Entreprise"), Cell.str (chars "Client"),
       Cell.str (chars "Statut")]
      [[Cell.str (chars "A1"), Cell.str (chars "B1"), Cell.str (chars "actif")],
       [Cell.str (chars "A2"), Cell.str (chars "B2"), Cell.str (chars "actif")],
       [Cell.str (chars "A3"), Cell.str (chars "B3"), Cell.str (chars "maybe")],
       [Cell.str (chars "A4"), Cell.str (chars "B4"), Cell.str (chars "actif")],
       [Cell.str (chars "A5"), Cell.str (chars "B5"), Cell.str (chars "actif")]]
      (fun _ => .ok ()) =
      ⟨0, 0, [chars "Ligne 4: statut inconnu " ++ quoteS (chars "maybe") ++
        chars ". Valeurs acceptées: actif, inactif."]⟩ ∧
    (importClients
      [Cell.str (chars "Entreprise"), Cell.str (chars "Client"),
       Cell.str (chars "Statut")]
      [[Cell.str (chars "A1"), Cell.str (chars "B1"), Cell.str (chars "actif")],
       [Cell.str (chars "A2"), Cell.str (chars "B2"), Cell.str (chars "actif")],
       [Cell.str (chars "A3"), Cell.str (chars "B3"), Cell.str (chars "maybe")],
       [Cell.str (chars "A4"), Cell.str (chars "B4"), Cell.str (chars "actif")],
       [Cell.str (chars "A5"), Cell.str (chars "B5"), Cell.str (chars "actif")]]
      (fun _ => .ok ())).created ≠ 4 := by
  constructor
  · decide
  · decide

/-- C5: a client sheet none of whose headers resolves is rejected upfront
with the no-valid-headers error, a sheet whose resolved headers miss a
required field is rejected upfront naming the missing columns — both as
an outcome `created=0, total=0` with a single error, independent of the
data rows — and the headers Entreprise / Nom Client / Email resolve to
company_name / name / email, covering the required set. -/
theorem client_import_upfront_header_rejections
    (headerCells : List Cell) (rows : List (List Cell))
    (create : ClientRow → Except Str Unit) :
    ((clientHeaders headerCells).any headerTruthy = false →
      importClients headerCells rows create =
        ⟨0, 0, [chars "Le fichier ne contient pas d\x27en-têtes valides."]⟩) ∧
    ((clientHeaders headerCells).any headerTruthy = true →
      clientMissing (clientHeaders headerCells) ≠ [] →
      importClients headerCells rows create =
        ⟨0, 0, [chars "Colonnes obligatoires manquantes: " ++
          joinSep (chars ", ") (clientMissing (clientHeaders headerCells))]⟩) ∧
    (clientHeaders [Cell.str (chars "Entreprise"), Cell.str (chars "Nom Client"),
        Cell.str (chars "Email")] =
      [.field (chars "company_name"), .field (chars "name"),
       .field (chars "email")] ∧
     clientMissing (clientHeaders [Cell.str (chars "Entreprise"),
        Cell.str (chars "Nom Client"), Cell.str (chars "Email")]) = []) := by
  refine ⟨?_, ?_, by decide⟩
  · intro h
    have hp : parseClientsExcel headerCells rows =
        .error (chars "Le fichier ne contient pas d\x27en-têtes valides.") := by
      unfold parseClientsExcel
      rw [if_pos (by rw [h]; exact Bool.false_ne_true)]
    unfold importClients
    rw [hp]
  · intro h hmiss
    have hp : parseClientsExcel headerCells rows =
        .error (chars "Colonnes obligatoires manquantes: " ++
          joinSep (chars ", ") (clientMissing (clientHeaders headerCells))) := by
      unfold parseClientsExcel
      rw [if_neg (by rw [h]; exact fun hk => hk rfl),
        if_pos (by rw [isEmpty_eq_false_of_ne_nil hmiss]; exact Bool.false_ne_true)]
    unfold importClients
    rw [hp]

theorem client_import_upfront_witness :
    importClients [Cell.str (chars "Quantité")] [[Cell.str (chars "x")]]
      (fun _ => .ok ()) =
      ⟨0, 0, [chars "Le fichier ne contient pas d\x27en-têtes valides."]⟩ ∧
    importClients [Cell.str (chars "Email")] [[Cell.str (chars "a@b.fr")]]
      (fun _ => .ok ()) =
      ⟨0, 0, [chars "Colonnes obligatoires manquantes: company_name, name"]⟩ :=
  ⟨(client_import_upfront_header_rejections [Cell.str (chars "Quantité")]
      [[Cell.str (chars "x")]] (fun _ => .ok ())).1 (by decide),
   ((client_import_upfront_header_rejections [Cell.str (chars "Email")]
      [[Cell.str (chars "a@b.fr")]] (fun _ => .ok ())).2.1 (by decide)
      (by decide)).trans (by decide)⟩

theorem plain_toNat {c : Char} (h : isPlainC c = true) :
    (48 ≤ c.toNat ∧ c.toNat ≤ 57) ∨ (97 ≤ c.toNat ∧ c.toNat ≤ 122) ∨
      c.toNat = 95 := by
  unfold isPlainC isDigitC at h
  simp only [Bool.or_eq_true, Bool.and_eq_true, decide_eq_true_eq] at h
  rcases h with (⟨h1, h2⟩ | ⟨h1, h2⟩) | h1
  · exact Or.inr (Or.inl ⟨h1, h2⟩)
  · exact Or.inl ⟨h1, h2⟩
  · rw [h1]
    exact Or.inr (Or.inr rfl)

theorem char_ne_of_toNat_lt {c x : Char} (hc : c.toNat ≤ 122)
    (hx : 122 < x.toNat) : ¬ (c = x) := by
  intro he
  rw [he] at hc
  omega

theorem isPyWS_eq_false_of_plain {c : Char} (h : isPlainC c = true) :
    isPyWS c = false := by
  have hb := plain_toNat h
  unfold isPyWS
  simp only [Bool.or_eq_false_iff, decide_eq_false_iff_not]
  refine ⟨⟨⟨⟨⟨⟨?_, ?_⟩, ?_⟩, ?_⟩, ?_⟩, ?_⟩, ?_⟩ <;>
    · intro he
      rw [he] at hb
      revert hb
      decide

theorem pyLowerChar_eq_self_of_plain {c : Char} (h : isPlainC c = true) :
    pyLowerChar c = c := by
  have hb := plain_toNat h
  have hhi : c.toNat ≤ 122 := by omega
  unfold pyLowerChar
  rw [if_neg (by omega),
    if_neg (char_ne_of_toNat_lt hhi (by decide)),
    if_neg (char_ne_of_toNat_lt hhi (by decide)),
    if_neg (char_ne_of_toNat_lt hhi (by decide)),
    if_neg (char_ne_of_toNat_lt hhi (by decide)),
    if_neg (char_ne_of_toNat_lt hhi (by decide)),
    if_neg (char_ne_of_toNat_lt hhi (by decide)),
    if_neg (char_ne_of_toNat_lt hhi (by decide)),
    if_neg (char_ne_of_toNat_lt hhi (by decide)),
    if_neg (char_ne_of_toNat_lt hhi (by decide)),
    if_neg (char_ne_of_toNat_lt hhi (by decide)),
    if_neg (char_ne_of_toNat_lt hhi (by decide)),
    if_neg (char_ne_of_toNat_lt hhi (by decide)),
    if_neg (char_ne_of_toNat_lt hhi (by decide))]

theorem stripAccent_eq_self_of_plain {c : Char} (h : isPlainC c = true) :
    stripAccent c = c := by
  have hb := plain_toNat h
  have hhi : c.toNat ≤ 122 := by omega
  unfold stripAccent
  rw [if_neg (by
      rintro (he | he | he | he) <;> exact char_ne_of_toNat_lt hhi (by decide) he),
    if_neg (by
      rintro (he | he | he) <;> exact char_ne_of_toNat_lt hhi (by decide) he),
    if_neg (by
      rintro (he | he) <;> exact char_ne_of_toNat_lt hhi (by decide) he),
    if_neg (by
      rintro (he | he) <;> exact char_ne_of_toNat_lt hhi (by decide) he),
    if_neg (by
      rintro (he | he | he) <;> exact char_ne_of_toNat_lt hhi (by decide) he),
    if_neg (char_ne_of_toNat_lt hhi (by decide))]

theorem sepChar_eq_self_of_plain {c : Char} (h : isPlainC c = true) :
    (if c = '-' ∨ c = '.' ∨ c = apos ∨ c = Char.ofNat 160 then ' ' else c) = c := by
  have hb := plain_toNat h
  rw [if_neg]
  rintro (he | he | he | he) <;>
    · rw [he] at hb
      revert hb
      decide

theorem map_eq_self_of {f : Char → Char} {s : Str} (h : ∀ c ∈ s, f c = c) :
    s.map f = s := by
  induction s with
  | nil => rfl
  | cons a t ih =>
    rw [List.map_cons, h a (List.mem_cons_self a t),
      ih (fun c hc => h c (List.mem_cons_of_mem a hc))]

theorem splitWS_of_no_ws {s : Str} (hne : s ≠ [])
    (h : ∀ c ∈ s, isPyWS c = false) : splitWS s = [s] := by
  induction s with
  | nil => exact absurd rfl hne
  | cons a t ih =>
    have ha : isPyWS a = false := h a (List.mem_cons_self a t)
    cases t with
    | nil => simp [splitWS, ha]
    | cons y ys =>
      have hy : isPyWS y = false := h y (by simp)
      have ht : splitWS (y :: ys) = [y :: ys] :=
        ih (List.cons_ne_nil y ys) (fun c hc => h c (List.mem_cons_of_mem a hc))
      conv_lhs => rw [splitWS]
      rw [if_neg (by rw [ha]; exact Bool.false_ne_true), ht]
      simp only []
      rw [if_neg (by rw [hy]; exact Bool.false_ne_true)]

theorem normalizeHeader_eq_self {s : Str} (hne : s ≠ [])
    (h : ∀ c ∈ s, isPlainC c = true) : normalizeHeader s = s := by
  unfold normalizeHeader
  simp only []
  rw [stripWS_eq_self (fun c hc => isPyWS_eq_false_of_plain (h c hc))]
  rw [show pyLower s = s from
    map_eq_self_of (fun c hc => pyLowerChar_eq_self_of_plain (h c hc))]
  rw [show List.map stripAccent s = s from
    map_eq_self_of (fun c hc => stripAccent_eq_self_of_plain (h c hc))]
  rw [show List.map (fun c =>
      if c = '-' ∨ c = '.' ∨ c = apos ∨ c = Char.ofNat 160 then ' ' else c) s = s from
    map_eq_self_of (fun c hc => sepChar_eq_self_of_plain (h c hc))]
  rw [splitWS_of_no_ws hne (fun c hc => isPyWS_eq_false_of_plain (h c hc))]
  rfl

theorem takeWhile_append_of_all {p : Char → Bool} {l : Str} (m : Str)
    (h : ∀ c ∈ l, p c = true) : (l ++ m).takeWhile p = l ++ m.takeWhile p := by
  induction l with
  | nil => rfl
  | cons a t ih =>
    rw [List.cons_append, List.takeWhile_cons, h a (List.mem_cons_self a t)]
    rw [ih (fun c hc => h c (List.mem_cons_of_mem a hc))]
    rfl

theorem dropWhile_append_of_all {p : Char → Bool} {l : Str} (m : Str)
    (h : ∀ c ∈ l, p c = true) : (l ++ m).dropWhile p = m.dropWhile p := by
  induction l with
  | nil => rfl
  | cons a t ih =>
    rw [List.cons_append, List.dropWhile_cons, h a (List.mem_cons_self a t)]
    exact ih (fun c hc => h c (List.mem_cons_of_mem a hc))

theorem alook_none_of_forall {β : Type} (l : List (Str × β)) (s : Str)
    (h : ∀ p ∈ l, p.1 ≠ s) : alook l s = none := by
  induction l with
  | nil => rfl
  | cons q t ih =>
    obtain ⟨a, b⟩ := q
    unfold alook
    rw [if_neg (h (a, b) (List.mem_cons_self _ t))]
    exact ih (fun p hp => h p (List.mem_cons_of_mem _ hp))

theorem columnAliases_contact_none (s : Str)
    (hs : hasPfx (chars "contact_") s = true) :
    alook columnAliases s = none := by
  apply alook_none_of_forall
  intro p hp he
  have hall : columnAliases.all (fun q => !hasPfx (chars "contact_") q.1) = true := by
    decide
  rw [List.all_eq_true] at hall
  have := hall p hp
  rw [he, hs] at this
  exact absurd this (by decide)

theorem natRender_all_plain (n : ℕ) : ∀ c ∈ natRender n, isPlainC c = true := by
  intro c hc
  have hall := natRender_all_digits n
  rw [List.all_eq_true] at hall
  have := hall c hc
  unfold isPlainC
  rw [this]
  simp

theorem matchContactHeader_group (N : ℕ) (fld : Str)
    (hf : fld.takeWhile isContactFieldChar = fld) (hfne : fld ≠ []) :
    matchContactHeader (chars "contact_" ++ natRender N ++ '_' :: fld) =
      some (N, fld) := by
  have hdig : ∀ c ∈ natRender N, isDigitC c = true := by
    intro c hc
    have hall := natRender_all_digits N
    rw [List.all_eq_true] at hall
    exact hall c hc
  have hpr : chars "contact_" ++ natRender N ++ '_' :: fld =
      chars "contact" ++ ('_' :: (natRender N ++ '_' :: fld)) := by
    rw [show chars "contact_" = chars "contact" ++ ['_'] from rfl]
    simp [List.append_assoc]
  unfold matchContactHeader
  rw [if_pos (by rw [hpr, hasPfx_append])]
  rw [show (chars "contact_" ++ natRender N ++ '_' :: fld).drop 7 =
      '_' :: (natRender N ++ '_' :: fld) by
    rw [hpr, show (7 : ℕ) = (chars "contact").length from rfl, List.drop_left]]
  simp only []
  rw [takeWhile_append_of_all ('_' :: fld) hdig,
    show ('_' :: fld).takeWhile isDigitC = [] from rfl, List.append_nil,
    dropWhile_append_of_all ('_' :: fld) hdig,
    show ('_' :: fld).dropWhile isDigitC = '_' :: fld from rfl]
  rw [if_neg (by rw [isEmpty_eq_false_of_ne_nil (natRender_ne_nil N)]; exact
    Bool.false_ne_true)]
  simp only [hf]
  rw [if_neg (by rw [isEmpty_eq_false_of_ne_nil hfne]; exact Bool.false_ne_true)]
  rw [digitsVal_natRender]

theorem resolveHeader_contact (N : ℕ) (fld out : Str)
    (hf : fld.takeWhile isContactFieldChar = fld) (hfne : fld ≠ [])
    (ha : alook contactFieldAliases fld = some out) :
    resolveHeader (chars "contact_" ++ natRender N ++ '_' :: fld) =
      .contact N out := by
  unfold resolveHeader
  rw [columnAliases_contact_none _ (by
    rw [show chars "contact_" ++ natRender N ++ '_' :: fld =
        chars "contact_" ++ (natRender N ++ '_' :: fld) from by
      simp [List.append_assoc]]
    rw [hasPfx_append])]
  rw [matchContactHeader_group N fld hf hfne]
  simp only [ha]

theorem contact_header_normalize (N : ℕ) (fld : Str)
    (h : ∀ c ∈ fld, isPlainC c = true) :
    normalizeHeader (chars "contact_" ++ natRender N ++ '_' :: fld) =
      chars "contact_" ++ natRender N ++ '_' :: fld := by
  apply normalizeHeader_eq_self
  · intro hcontra
    have : (chars "contact_" ++ natRender N ++ '_' :: fld).length = 0 := by
      rw [hcontra]
      rfl
    simp [List.length_append] at this
  · intro c hc
    simp only [List.append_assoc, List.mem_append, List.mem_cons] at hc
    rcases hc with hc | hc | rfl | hc
    · have : (chars "contact_").all isPlainC = true := by decide
      rw [List.all_eq_true] at this
      exact this c hc
    · exact natRender_all_plain N c hc
    · decide
    · exact h c hc

theorem alook_cons_self {α β : Type} [DecidableEq α] (k : α) (b : β)
    (t : List (α × β)) : alook ((k, b) :: t) k = some b := by
  unfold alook
  rw [if_pos rfl]

theorem aset_cons_self {α β : Type} [DecidableEq α] (k : α) (b c : β)
    (t : List (α × β)) : aset ((k, b) :: t) k c = (k, c) :: t := by
  unfold aset
  rw [if_pos rfl]

theorem exceptBind_ok {α β : Type} (x : α) (f : α → Except Str β) :
    Except.bind (Except.ok x) f = f x := rfl

theorem exceptBind_err {α β : Type} (e : Str) (f : α → Except Str β) :
    Except.bind (Except.error e : Except Str α) f = .error e := rfl

theorem coerceValue_str_of_strip {v : Str} (hstrip : stripWS v = v)
    (hne : v ≠ []) : coerceValue (Cell.str v) = some v := by
  unfold coerceValue
  simp only [hstrip, isEmpty_eq_false_of_ne_nil hne]
  rfl

theorem smem_statusValues_eq_false {n : Str}
    (h : alook statusAliases n = Option.none) :
    smem statusValues n = false := by
  have ha : ¬ (chars "actif" = n) := by
    intro he
    rw [← he] at h
    exact absurd h (by decide)
  have hi : ¬ (chars "inactif" = n) := by
    intro he
    rw [← he] at h
    exact absurd h (by decide)
  simp only [smem, statusValues, List.any_cons, List.any_nil,
    decide_eq_false ha, decide_eq_false hi, Bool.or_false]

/-- C10: in the client-sheet parser, a non-blank status cell whose text
normalizes to the empty string (e.g. `---`) is stored as `None` and
passes the status check; any other non-matching value raises the error
listing the accepted values; and the boolean-like aliases oui/true/1
and non/false/0 normalize to actif and inactif respectively. -/
theorem client_status_empty_normalization (v : Str)
    (hstrip : stripWS v = v) (hne : v ≠ []) :
    (normalizeHeader v = [] →
      parseClientsExcel
        [Cell.str (chars "Entreprise"), Cell.str (chars "Client"),
         Cell.str (chars "Statut")]
        [[Cell.str (chars "Acme"), Cell.str (chars "Bob"), Cell.str v]] =
      .ok [⟨2, [(chars "company_name", some (chars "Acme")),
                (chars "name", some (chars "Bob")),
                (chars "status", Option.none)], []⟩]) ∧
    (normalizeHeader v ≠ [] →
      alook statusAliases (normalizeHeader v) = Option.none →
      parseClientsExcel
        [Cell.str (chars "Entreprise"), Cell.str (chars "Client"),
         Cell.str (chars "Statut")]
        [[Cell.str (chars "Acme"), Cell.str (chars "Bob"), Cell.str v]] =
      .error (chars "Ligne " ++ natRender 2 ++ chars ": statut inconnu " ++
        quoteS (normalizeHeader v) ++
        chars ". Valeurs acceptées: actif, inactif.")) ∧
    ((fun s => parseClientsExcel
        [Cell.str (chars "Entreprise"), Cell.str (chars "Client"),
         Cell.str (chars "Statut")]
        [[Cell.str (chars "Acme"), Cell.str (chars "Bob"), Cell.str s]])
        (chars "oui") =
      .ok [⟨2, [(chars "company_name", some (chars "Acme")),
                (chars "name", some (chars "Bob")),
                (chars "status", some (chars "actif"))], []⟩] ∧
     (fun s => parseClientsExcel
        [Cell.str (chars "Entreprise"), Cell.str (chars "Client"),
         Cell.str (chars "Statut")]
        [[Cell.str (chars "Acme"), Cell.str (chars "Bob"), Cell.str s]])
        (chars "true") =
      .ok [⟨2, [(chars "company_name", some (chars "Acme")),
                (chars "name", some (chars "Bob")),
                (chars "status", some (chars "actif"))], []⟩] ∧
     (fun s => parseClientsExcel
        [Cell.str (chars "Entreprise"), Cell.str (chars "Client"),
         Cell.str (chars "Statut")]
        [[Cell.str (chars "Acme"), Cell.str (chars "Bob"), Cell.str s]])
        (chars "1") =
      .ok [⟨2, [(chars "company_name", some (chars "Acme")),
                (chars "name", some (chars "Bob")),
                (chars "status", some (chars "actif"))], []⟩] ∧
     (fun s => parseClientsExcel
        [Cell.str (chars "Entreprise"), Cell.str (chars "Client"),
         Cell.str (chars "Statut")]
        [[Cell.str (chars "Acme"), Cell.str (chars "Bob"), Cell.str s]])
        (chars "non") =
      .ok [⟨2, [(chars "company_name", some (chars "Acme")),
                (chars "name", some (chars "Bob")),
                (chars "status", some (chars "inactif"))], []⟩] ∧
     (fun s => parseClientsExcel
        [Cell.str (chars "Entreprise"), Cell.str (chars "Client"),
         Cell.str (chars "Statut")]
        [[Cell.str (chars "Acme"), Cell.str (chars "Bob"), Cell.str s]])
        (chars "false") =
      .ok [⟨2, [(chars "company_name", some (chars "Acme")),
                (chars "name", some (chars "Bob")),
                (chars "status", some (chars "inactif"))], []⟩] ∧
     (fun s => parseClientsExcel
        [Cell.str (chars "Entreprise"), Cell.str (chars "Client"),
         Cell.str (chars "Statut")]
        [[Cell.str (chars "Acme"), Cell.str (chars "Bob"), Cell.str s]])
        (chars "0") =
      .ok [⟨2, [(chars "company_name", some (chars "Acme")),
                (chars "name", some (chars "Bob")),
                (chars "status", some (chars "inactif"))], []⟩]) := by
  have hcv : coerceValue (Cell.str v) = some v := coerceValue_str_of_strip hstrip hne
  have hshape : parseClientsExcel
      [Cell.str (chars "Entreprise"), Cell.str (chars "Client"),
       Cell.str (chars "Statut")]
      [[Cell.str (chars "Acme"), Cell.str (chars "Bob"), Cell.str v]] =
    Except.bind
      (Except.bind
        (Except.bind
          (processClientCell 2
            ⟨[(chars "company_name", some (chars "Acme")),
              (chars "name", some (chars "Bob"))], [], false⟩
            (HeaderR.field (chars "status")) (Cell.str v))
          (fun st => Except.ok st))
        (finishClientRow 2))
      (fun r? =>
        match r? with
        | some record => Except.ok [record]
        | Option.none => Except.ok []) := rfl
  refine ⟨?_, ?_, by decide, by decide, by decide, by decide, by decide, by decide⟩
  · intro hnorm
    have h3 : processClientCell 2
        ⟨[(chars "company_name", some (chars "Acme")),
          (chars "name", some (chars "Bob"))], [], false⟩
        (HeaderR.field (chars "status")) (Cell.str v) =
      .ok ⟨[(chars "company_name", some (chars "Acme")),
            (chars "name", some (chars "Bob")),
            (chars "status", Option.none)], [], false⟩ := by
      unfold processClientCell
      rw [hcv]
      simp only []
      rw [hnorm]
      rfl
    rw [hshape, h3]
    rfl
  · intro hnz halook
    have h3 : processClientCell 2
        ⟨[(chars "company_name", some (chars "Acme")),
          (chars "name", some (chars "Bob"))], [], false⟩
        (HeaderR.field (chars "status")) (Cell.str v) =
      .ok ⟨[(chars "company_name", some (chars "Acme")),
            (chars "name", some (chars "Bob")),
            (chars "status", some (normalizeHeader v))], [], false⟩ := by
      unfold processClientCell
      rw [hcv]
      simp only []
      rw [halook, isEmpty_eq_false_of_ne_nil hnz]
      rfl
    rw [hshape, h3, exceptBind_ok, exceptBind_ok]
    have hfinshape : finishClientRow 2
        ⟨[(chars "company_name", some (chars "Acme")),
          (chars "name", some (chars "Bob")),
          (chars "status", some (normalizeHeader v))], [], false⟩ =
      (if truthyS (some (normalizeHeader v)) ∧
          ¬ smem statusValues (normalizeHeader v) then
        Except.error (chars "Ligne " ++ natRender 2 ++ chars ": statut inconnu " ++
          quoteS (normalizeHeader v) ++ chars ". Valeurs acceptées: actif, inactif.")
      else
        Except.bind (assembleContacts 2 (sortByKey []))
          (fun contacts => Except.ok (some ⟨2,
            [(chars "company_name", some (chars "Acme")),
             (chars "name", some (chars "Bob")),
             (chars "status", some (normalizeHeader v))], contacts⟩))) := rfl
    rw [hfinshape, if_pos ?_]
    · rfl
    · constructor
      · show (!(normalizeHeader v).isEmpty) = true
        rw [isEmpty_eq_false_of_ne_nil hnz]
        rfl
      · rw [smem_statusValues_eq_false halook]
        exact Bool.false_ne_true

theorem client_status_witness :
    parseClientsExcel
      [Cell.str (chars "Entreprise"), Cell.str (chars "Client"),
       Cell.str (chars "Statut")]
      [[Cell.str (chars "Acme"), Cell.str (chars "Bob"),
        Cell.str (chars "---")]] =
      .ok [⟨2, [(chars "company_name", some (chars "Acme")),
                (chars "name", some (chars "Bob")),
                (chars "status", Option.none)], []⟩] ∧
    parseClientsExcel
      [Cell.str (chars "Entreprise"), Cell.str (chars "Client"),
       Cell.str (chars "Statut")]
      [[Cell.str (chars "Acme"), Cell.str (chars "Bob"),
        Cell.str (chars "maybe")]] =
      .error (chars "Ligne 2: statut inconnu \x27maybe\x27. Valeurs acceptées: actif, inactif.") :=
  ⟨(client_status_empty_normalization (chars "---") (by decide) (by decide)).1
      (by decide),
   ((client_status_empty_normalization (chars "maybe") (by decide) (by decide)).2.1
      (by decide) (by decide)).trans (by decide)⟩

/-- C7: in a client row whose `contact_N_email` column is populated, the
row fails with an error naming contact N when the `contact_N_name` cell
is empty, and succeeds with exactly one nested contact sub-record for
group N when a name is supplied. -/
theorem contact_group_requires_name (N : ℕ) (e x : Str)
    (he1 : stripWS e = e) (he2 : e ≠ [])
    (hx1 : stripWS x = x) (hx2 : x ≠ []) :
    parseClientsExcel
      [Cell.str (chars "Entreprise"), Cell.str (chars "Client"),
       Cell.str (chars "contact_" ++ natRender N ++ '_' :: chars "email"),
       Cell.str (chars "contact_" ++ natRender N ++ '_' :: chars "name")]
      [[Cell.str (chars "Acme"), Cell.str (chars "Bob"), Cell.str e, Cell.none]] =
      .error (chars "Ligne " ++ natRender 2 ++ chars ": le contact " ++
        natRender N ++ chars " doit avoir un nom.") ∧
    parseClientsExcel
      [Cell.str (chars "Entreprise"), Cell.str (chars "Client"),
       Cell.str (chars "contact_" ++ natRender N ++ '_' :: chars "email"),
       Cell.str (chars "contact_" ++ natRender N ++ '_' :: chars "name")]
      [[Cell.str (chars "Acme"), Cell.str (chars "Bob"), Cell.str e, Cell.str x]] =
      .ok [⟨2, [(chars "company_name", some (chars "Acme")),
                (chars "name", some (chars "Bob"))],
            [[(chars "email", e), (chars "name", x)]]⟩] := by
  have hcve : coerceValue (Cell.str e) = some e := coerceValue_str_of_strip he1 he2
  have hcvx : coerceValue (Cell.str x) = some x := coerceValue_str_of_strip hx1 hx2
  have hmail : resolveHeader (normalizeHeaderCell
      (Cell.str (chars "contact_" ++ natRender N ++ '_' :: chars "email"))) =
      HeaderR.contact N (chars "email") := by
    show resolveHeader (normalizeHeader
      (chars "contact_" ++ natRender N ++ '_' :: chars "email")) = _
    rw [contact_header_normalize N (chars "email") (by decide)]
    exact resolveHeader_contact N (chars "email") (chars "email")
      (by decide) (by decide) (by decide)
  have hname : resolveHeader (normalizeHeaderCell
      (Cell.str (chars "contact_" ++ natRender N ++ '_' :: chars "name"))) =
      HeaderR.contact N (chars "name") := by
    show resolveHeader (normalizeHeader
      (chars "contact_" ++ natRender N ++ '_' :: chars "name")) = _
    rw [contact_header_normalize N (chars "name") (by decide)]
    exact resolveHeader_contact N (chars "name") (chars "name")
      (by decide) (by decide) (by decide)
  have hH : clientHeaders
      [Cell.str (chars "Entreprise"), Cell.str (chars "Client"),
       Cell.str (chars "contact_" ++ natRender N ++ '_' :: chars "email"),
       Cell.str (chars "contact_" ++ natRender N ++ '_' :: chars "name")] =
      [HeaderR.field (chars "company_name"), HeaderR.field (chars "name"),
       HeaderR.contact N (chars "email"), HeaderR.contact N (chars "name")] := by
    unfold clientHeaders
    simp only [List.map_cons, List.map_nil]
    rw [hmail, hname]
    rw [show resolveHeader (normalizeHeaderCell (Cell.str (chars "Entreprise"))) =
        HeaderR.field (chars "company_name") from by decide]
    rw [show resolveHeader (normalizeHeaderCell (Cell.str (chars "Client"))) =
        HeaderR.field (chars "name") from by decide]
  have h3 : processClientCell 2
      ⟨[(chars "company_name", some (chars "Acme")),
        (chars "name", some (chars "Bob"))], [], false⟩
      (HeaderR.contact N (chars "email")) (Cell.str e) =
      .ok ⟨[(chars "company_name", some (chars "Acme")),
            (chars "name", some (chars "Bob"))],
           [(N, [(chars "email", e)])], false⟩ := by
    unfold processClientCell
    rw [hcve]
    rfl
  constructor
  · unfold parseClientsExcel
    rw [hH]
    rw [if_neg (fun hc => hc rfl), if_neg (fun hc => hc rfl)]
    have hloopshape : clientRowsLoop
        [HeaderR.field (chars "company_name"), HeaderR.field (chars "name"),
         HeaderR.contact N (chars "email"), HeaderR.contact N (chars "name")]
        [[Cell.str (chars "Acme"), Cell.str (chars "Bob"), Cell.str e, Cell.none]] 2 =
      Except.bind
        (Except.bind
          (Except.bind
            (processClientCell 2
              ⟨[(chars "company_name", some (chars "Acme")),
                (chars "name", some (chars "Bob"))], [], false⟩
              (HeaderR.contact N (chars "email")) (Cell.str e))
            (fun st => clientCellsLoop
              [HeaderR.field (chars "company_name"), HeaderR.field (chars "name"),
               HeaderR.contact N (chars "email"), HeaderR.contact N (chars "name")]
              2 [Cell.none] 3 st))
          (finishClientRow 2))
        (fun r? =>
          match r? with
          | some record => Except.ok [record]
          | Option.none => Except.ok []) := rfl
    rw [hloopshape, h3, exceptBind_ok]
    rw [show clientCellsLoop
        [HeaderR.field (chars "company_name"), HeaderR.field (chars "name"),
         HeaderR.contact N (chars "email"), HeaderR.contact N (chars "name")]
        2 [Cell.none] 3
        ⟨[(chars "company_name", some (chars "Acme")),
          (chars "name", some (chars "Bob"))],
         [(N, [(chars "email", e)])], false⟩ =
      Except.ok ⟨[(chars "company_name", some (chars "Acme")),
          (chars "name", some (chars "Bob"))],
         [(N, [(chars "email", e)])], false⟩ from rfl]
    rw [exceptBind_ok]
    have hfinshape : finishClientRow 2
        ⟨[(chars "company_name", some (chars "Acme")),
          (chars "name", some (chars "Bob"))],
         [(N, [(chars "email", e)])], false⟩ =
      Except.bind (assembleContacts 2 [(N, [(chars "email", e)])])
        (fun contacts => Except.ok (some ⟨2,
          [(chars "company_name", some (chars "Acme")),
           (chars "name", some (chars "Bob"))], contacts⟩)) := rfl
    have hassemble : assembleContacts 2 [(N, [(chars "email", e)])] =
        .error (chars "Ligne " ++ natRender 2 ++ chars ": le contact " ++
          natRender N ++ chars " doit avoir un nom.") := by
      unfold assembleContacts
      rw [if_pos (show ¬ truthyS
        (alook [(chars "email", e)] (chars "name")) = true from
        fun hc => Bool.false_ne_true hc)]
      rw [if_pos (Or.inl (show truthyS
        (alook [(chars "email", e)] (chars "email")) = true from by
          show (!e.isEmpty) = true
          rw [isEmpty_eq_false_of_ne_nil he2]
          rfl))]
    rw [hfinshape, hassemble, exceptBind_err, exceptBind_err]
  · unfold parseClientsExcel
    rw [hH]
    rw [if_neg (fun hc => hc rfl), if_neg (fun hc => hc rfl)]
    have hloopshape : clientRowsLoop
        [HeaderR.field (chars "company_name"), HeaderR.field (chars "name"),
         HeaderR.contact N (chars "email"), HeaderR.contact N (chars "name")]
        [[Cell.str (chars "Acme"), Cell.str (chars "Bob"), Cell.str e,
          Cell.str x]] 2 =
      Except.bind
        (Except.bind
          (Except.bind
            (processClientCell 2
              ⟨[(chars "company_name", some (chars "Acme")),
                (chars "name", some (chars "Bob"))], [], false⟩
              (HeaderR.contact N (chars "email")) (Cell.str e))
            (fun st => clientCellsLoop
              [HeaderR.field (chars "company_name"), HeaderR.field (chars "name"),
               HeaderR.contact N (chars "email"), HeaderR.contact N (chars "name")]
              2 [Cell.str x] 3 st))
          (finishClientRow 2))
        (fun r? =>
          match r? with
          | some record => Except.ok [record]
          | Option.none => Except.ok []) := rfl
    rw [hloopshape, h3, exceptBind_ok]
    rw [show clientCellsLoop
        [HeaderR.field (chars "company_name"), HeaderR.field (chars "name"),
         HeaderR.contact N (chars "email"), HeaderR.contact N (chars "name")]
        2 [Cell.str x] 3
        ⟨[(chars "company_name", some (chars "Acme")),
          (chars "name", some (chars "Bob"))],
         [(N, [(chars "email", e)])], false⟩ =
      Except.bind
        (processClientCell 2
          ⟨[(chars "company_name", some (chars "Acme")),
            (chars "name", some (chars "Bob"))],
           [(N, [(chars "email", e)])], false⟩
          (HeaderR.contact N (chars "name")) (Cell.str x))
        (fun st => Except.ok st) from rfl]
    have h4 : processClientCell 2
        ⟨[(chars "company_name", some (chars "Acme")),
          (chars "name", some (chars "Bob"))],
         [(N, [(chars "email", e)])], false⟩
        (HeaderR.contact N (chars "name")) (Cell.str x) =
        .ok ⟨[(chars "company_name", some (chars "Acme")),
              (chars "name", some (chars "Bob"))],
             [(N, [(chars "email", e), (chars "name", x)])], false⟩ := by
      unfold processClientCell
      rw [hcvx]
      simp only []
      unfold updContact
      rw [alook_cons_self, aset_cons_self]
      rfl
    rw [h4, exceptBind_ok, exceptBind_ok]
    have hfinshape : finishClientRow 2
        ⟨[(chars "company_name", some (chars "Acme")),
          (chars "name", some (chars "Bob"))],
         [(N, [(chars "email", e), (chars "name", x)])], false⟩ =
      Except.bind
        (assembleContacts 2 [(N, [(chars "email", e), (chars "name", x)])])
        (fun contacts => Except.ok (some ⟨2,
          [(chars "company_name", some (chars "Acme")),
           (chars "name", some (chars "Bob"))], contacts⟩)) := rfl
    have hassemble : assembleContacts 2
        [(N, [(chars "email", e), (chars "name", x)])] =
        .ok [[(chars "email", e), (chars "name", x)]] := by
      unfold assembleContacts
      rw [if_neg (fun hc => hc (show truthyS
        (alook [(chars "email", e), (chars "name", x)] (chars "name")) = true from by
          show (!x.isEmpty) = true
          rw [isEmpty_eq_false_of_ne_nil hx2]
          rfl))]
      rfl
    rw [hfinshape, hassemble, exceptBind_ok]
    rfl

theorem contact_group_witness :
    parseClientsExcel
      [Cell.str (chars "Entreprise"), Cell.str (chars "Client"),
       Cell.str (chars "contact_" ++ natRender 2 ++ '_' :: chars "email"),
       Cell.str (chars "contact_" ++ natRender 2 ++ '_' :: chars "name")]
      [[Cell.str (chars "Acme"), Cell.str (chars "Bob"),
        Cell.str (chars "a@b.fr"), Cell.none]] =
      .error (chars "Ligne " ++ natRender 2 ++ chars ": le contact " ++
        natRender 2 ++ chars " doit avoir un nom.") ∧
    parseClientsExcel
      [Cell.str (chars "Entreprise"), Cell.str (chars "Client"),
       Cell.str (chars "contact_" ++ natRender 2 ++ '_' :: chars "email"),
       Cell.str (chars "contact_" ++ natRender 2 ++ '_' :: chars "name")]
      [[Cell.str (chars "Acme"), Cell.str (chars "Bob"),
        Cell.str (chars "a@b.fr"), Cell.str (chars "X")]] =
      .ok [⟨2, [(chars "company_name", some (chars "Acme")),
                (chars "name", some (chars "Bob"))],
            [[(chars "email", chars "a@b.fr"), (chars "name", chars "X")]]⟩] :=
  contact_group_requires_name 2 (chars "a@b.fr") (chars "X")
    (by decide) (by decide) (by decide) (by decide)

/-- C9: in the filter-lines parser, a row with no quantity /
included-in-contract / ordered columns gets the defaults 1 / false /
false; a `poche` row with no pocket count is rejected with a row-tagged
error; and for each of the three other format types a supplied pocket
count is removed from the resulting record. -/
theorem filter_lines_defaults_and_pockets :
    parseFilterLinesExcel
      [Cell.str (chars "Site"), Cell.str (chars "Equipement"),
       Cell.str (chars "Format")]
      [[Cell.str (chars "Usine"), Cell.str (chars "CTA1"),
        Cell.str (chars "cadre")]] =
      .ok [⟨2, [(chars "site", .s (chars "Usine")),
                (chars "equipment", .s (chars "CTA1")),
                (chars "format_type", .s (chars "cadre")),
                (chars "quantity", .i 1),
                (chars "included_in_contract", .b false),
                (chars "ordered", .b false)]⟩] ∧
    parseFilterLinesExcel
      [Cell.str (chars "Site"), Cell.str (chars "Equipement"),
       Cell.str (chars "Format")]
      [[Cell.str (chars "Usine"), Cell.str (chars "CTA1"),
        Cell.str (chars "poche")]] =
      .error (chars "Ligne 2: indiquez le nombre de poches pour un filtre au format poche.") ∧
    parseFilterLinesExcel
      [Cell.str (chars "Site"), Cell.str (chars "Equipement"),
       Cell.str (chars "Format"), Cell.str (chars "Poches")]
      [[Cell.str (chars "Usine"), Cell.str (chars "CTA1"),
        Cell.str (chars "cadre"), Cell.str (chars "3")]] =
      .ok [⟨2, [(chars "site", .s (chars "Usine")),
                (chars "equipment", .s (chars "CTA1")),
                (chars "format_type", .s (chars "cadre")),
                (chars "quantity", .i 1),
                (chars "included_in_contract", .b false),
                (chars "ordered", .b false)]⟩] ∧
    parseFilterLinesExcel
      [Cell.str (chars "Site"), Cell.str (chars "Equipement"),
       Cell.str (chars "Format"), Cell.str (chars "Poches")]
      [[Cell.str (chars "Usine"), Cell.str (chars "CTA1"),
        Cell.str (chars "cousus_sur_fil"), Cell.str (chars "3")]] =
      .ok [⟨2, [(chars "site", .s (chars "Usine")),
                (chars "equipment", .s (chars "CTA1")),
                (chars "format_type", .s (chars "cousus_sur_fil")),
                (chars "quantity", .i 1),
                (chars "included_in_contract", .b false),
                (chars "ordered", .b false)]⟩] ∧
    parseFilterLinesExcel
      [Cell.str (chars "Site"), Cell.str (chars "Equipement"),
       Cell.str (chars "Format"), Cell.str (chars "Poches")]
      [[Cell.str (chars "Usine"), Cell.str (chars "CTA1"),
        Cell.str (chars "multi_diedre"), Cell.str (chars "3")]] =
      .ok [⟨2, [(chars "site", .s (chars "Usine")),
                (chars "equipment", .s (chars "CTA1")),
                (chars "format_type", .s (chars "multi_diedre")),
                (chars "quantity", .i 1),
                (chars "included_in_contract", .b false),
                (chars "ordered", .b false)]⟩] ∧
    parseFilterLinesExcel
      [Cell.str (chars "Site"), Cell.str (chars "Equipement"),
       Cell.str (chars "Format"), Cell.str (chars "Poches")]
      [[Cell.str (chars "Usine"), Cell.str (chars "CTA1"),
        Cell.str (chars "poche"), Cell.str (chars "3")]] =
      .ok [⟨2, [(chars "site", .s (chars "Usine")),
                (chars "equipment", .s (chars "CTA1")),
                (chars "format_type", .s (chars "poche")),
                (chars "pocket_count", .i 3),
                (chars "quantity", .i 1),
                (chars "included_in_contract", .b false),
                (chars "ordered", .b false)]⟩] := by
  refine ⟨by decide, by decide, by decide, by decide, by decide, by decide⟩

theorem predefined_frequency_label_witness :
    frequencyLabelFromDetails (chars "contrat_mensuel") (some 7)
        (some (chars "years")) = chars "Contrat de maintenance mensuel" ∧
    frequencyLabelFromDetails (chars "contrat_mensuel") none none =
      chars "Contrat de maintenance mensuel" :=
  ⟨predefined_frequency_label_constant (chars "contrat_mensuel")
      ⟨chars "Contrat de maintenance mensuel", some 1, some (chars "months")⟩
      (some 7) (some (chars "years")) (by decide),
   predefined_frequency_label_constant (chars "contrat_mensuel")
      ⟨chars "Contrat de maintenance mensuel", some 1, some (chars "months")⟩
      none none (by decide)⟩

/-! ### Workload codec: rounding arithmetic -/

theorem ratFloor_eq_floor (x : ℚ) : ratFloor x = ⌊x⌋ := by
  unfold ratFloor
  rw [Rat.floor_def]

theorem ratFloor_intCast (n : ℤ) : ratFloor ((n : ℚ)) = n := by
  rw [ratFloor_eq_floor, Int.floor_intCast]

theorem rhe_intCast (n : ℤ) : rhe ((n : ℚ)) = n := by
  unfold rhe
  simp only []
  rw [ratFloor_intCast, sub_self]
  rw [if_pos (by norm_num : (0 : ℚ) < 1 / 2)]

theorem rhe_nonneg {x : ℚ} (h : 0 ≤ x) : 0 ≤ rhe x := by
  have hf : 0 ≤ ratFloor x := by
    rw [ratFloor_eq_floor]
    exact Int.floor_nonneg.mpr h
  unfold rhe
  simp only []
  split
  · exact hf
  · split
    · omega
    · split
      · exact hf
      · omega

theorem roundTo_eq_self {k : ℕ} {q : ℚ} {n : ℤ} (h : q * 10 ^ k = (n : ℚ)) :
    roundTo k q = q := by
  unfold roundTo
  rw [h, rhe_intCast, ← h, mul_div_assoc, div_self (by positivity : ((10 : ℚ) ^ k) ≠ 0),
    mul_one]

theorem decMul_cast (m : ℤ) (k K : ℕ) (hk : k ≤ K) :
    (m : ℚ) / 10 ^ k * 10 ^ K = ((m * 10 ^ (K - k) : ℤ) : ℚ) := by
  have hpow : (10 : ℚ) ^ K = 10 ^ k * 10 ^ (K - k) := by
    rw [← pow_add]
    congr 1
    omega
  rw [hpow]
  push_cast
  have h10 : ((10 : ℚ) ^ k) ≠ 0 := by positivity
  field_simp
  ring

/-! ### Workload codec: decimal reduction -/

theorem decReduce_val (m : ℤ) (k : ℕ) :
    ((decReduce m k).1 : ℚ) / 10 ^ (decReduce m k).2 = (m : ℚ) / 10 ^ k := by
  induction k generalizing m with
  | zero => rfl
  | succ k ih =>
    unfold decReduce
    by_cases h : (10 : ℤ) ∣ m
    · rw [if_pos h]
      obtain ⟨c, rfl⟩ := h
      rw [Int.mul_ediv_cancel_left c (by norm_num), ih c]
      push_cast
      rw [pow_succ]
      have h10 : ((10 : ℚ) ^ k) ≠ 0 := by positivity
      field_simp
      ring
    · rw [if_neg h]

theorem decReduce_nonneg {m : ℤ} (k : ℕ) (h : 0 ≤ m) : 0 ≤ (decReduce m k).1 := by
  induction k generalizing m with
  | zero => exact h
  | succ k ih =>
    unfold decReduce
    by_cases hd : (10 : ℤ) ∣ m
    · rw [if_pos hd]
      obtain ⟨c, rfl⟩ := hd
      rw [Int.mul_ediv_cancel_left c (by norm_num)]
      exact ih (by omega)
    · rw [if_neg hd]
      exact h

theorem decReduce_pos {m : ℤ} (k : ℕ) (h : 0 < m) : 0 < (decReduce m k).1 := by
  induction k generalizing m with
  | zero => exact h
  | succ k ih =>
    unfold decReduce
    by_cases hd : (10 : ℤ) ∣ m
    · rw [if_pos hd]
      obtain ⟨c, rfl⟩ := hd
      rw [Int.mul_ediv_cancel_left c (by norm_num)]
      exact ih (by omega)
    · rw [if_neg hd]
      exact h

theorem decReduce_not_dvd (m : ℤ) (k : ℕ) :
    (decReduce m k).2 = 0 ∨ ¬ (10 : ℤ) ∣ (decReduce m k).1 := by
  induction k generalizing m with
  | zero => exact Or.inl rfl
  | succ k ih =>
    unfold decReduce
    by_cases hd : (10 : ℤ) ∣ m
    · rw [if_pos hd]
      exact ih (m / 10)
    · rw [if_neg hd]
      exact Or.inr hd

theorem decReduce_of_dvd (m : ℤ) (k : ℕ) (h : (10 ^ k : ℤ) ∣ m) :
    decReduce m k = (m / 10 ^ k, 0) := by
  induction k generalizing m with
  | zero =>
    unfold decReduce
    norm_num
  | succ k ih =>
    obtain ⟨c, rfl⟩ := h
    conv_lhs => unfold decReduce
    rw [if_pos ((dvd_pow_self (10 : ℤ) (Nat.succ_ne_zero k)).mul_right c)]
    have e1 : (10 : ℤ) ^ (k + 1) * c / 10 = 10 ^ k * c := by
      rw [show (10 : ℤ) ^ (k + 1) * c = 10 * (10 ^ k * c) by ring]
      exact Int.mul_ediv_cancel_left _ (by norm_num)
    rw [e1, ih _ (dvd_mul_right (10 ^ k) c)]
    have e2 : (10 : ℤ) ^ k * c / 10 ^ k = c :=
      Int.mul_ediv_cancel_left _ (by positivity)
    have e3 : (10 : ℤ) ^ (k + 1) * c / 10 ^ (k + 1) = c :=
      Int.mul_ediv_cancel_left _ (by positivity)
    rw [e2, e3]

theorem decReduce_shift (m : ℤ) (k j : ℕ) :
    decReduce (m * 10 ^ j) (k + j) = decReduce m k := by
  induction j with
  | zero => simp
  | succ j ih =>
    rw [show k + (j + 1) = (k + j) + 1 by omega]
    conv_lhs => unfold decReduce
    rw [if_pos ((dvd_pow_self (10 : ℤ) (Nat.succ_ne_zero j)).mul_left m)]
    have e1 : m * 10 ^ (j + 1) / 10 = m * 10 ^ j := by
      rw [show m * 10 ^ (j + 1) = 10 * (m * 10 ^ j) by ring]
      exact Int.mul_ediv_cancel_left _ (by norm_num)
    rw [e1]
    exact ih

theorem den_one_iff (m : ℤ) (k : ℕ) :
    ((m : ℚ) / 10 ^ k).den = 1 ↔ (10 ^ k : ℤ) ∣ m := by
  constructor
  · intro h
    have hnum : ((((m : ℚ) / 10 ^ k).num : ℚ)) = (m : ℚ) / 10 ^ k := by
      conv_rhs => rw [← Rat.num_div_den ((m : ℚ) / 10 ^ k)]
      rw [h]
      norm_num
    have h10 : ((10 : ℚ) ^ k) ≠ 0 := by positivity
    have hm : (m : ℚ) = ((((m : ℚ) / 10 ^ k).num : ℚ)) * 10 ^ k := by
      rw [hnum]
      field_simp
    have hmz : m = ((m : ℚ) / 10 ^ k).num * 10 ^ k := by exact_mod_cast hm
    exact ⟨((m : ℚ) / 10 ^ k).num, by conv_lhs => rw [hmz]; rw [mul_comm]⟩
  · rintro ⟨c, rfl⟩
    have h10 : ((10 : ℚ) ^ k) ≠ 0 := by positivity
    have hc : ((10 ^ k * c : ℤ) : ℚ) / 10 ^ k = (c : ℚ) := by
      push_cast
      rw [mul_comm, mul_div_assoc, div_self h10, mul_one]
    rw [hc, Rat.den_intCast]

/-! ### Workload codec: trailing-strip lemmas -/

theorem rstripSet_append_keep (cs : List Char) (X : Str) {c : Char}
    (h : cs.contains c = false) : rstripSet cs (X ++ [c]) = X ++ [c] := by
  unfold rstripSet
  rw [List.reverse_append, List.reverse_singleton, List.singleton_append,
    List.dropWhile_cons]
  simp only [h]
  rw [if_neg (by simp)]
  rw [List.reverse_cons, List.reverse_reverse]

theorem rstripSet_append_drop (cs : List Char) (X : Str) {c : Char}
    (h : cs.contains c = true) : rstripSet cs (X ++ [c]) = rstripSet cs X := by
  unfold rstripSet
  rw [List.reverse_append, List.reverse_singleton, List.singleton_append,
    List.dropWhile_cons]
  simp only [h]
  rw [if_pos trivial]

theorem rstripSet_all_keep (cs : List Char) {s : Str}
    (h : ∀ c ∈ s, cs.contains c = false) : rstripSet cs s = s := by
  unfold rstripSet
  rw [dropWhile_eq_self_of_all (fun c hc => h c (List.mem_reverse.mp hc)),
    List.reverse_reverse]

/-! ### Workload codec: digit-block facts -/

theorem padDigits_two : ∀ b < 100,
    padDigits 2 b = [digitChar (b / 10), digitChar (b % 10)] := by decide

theorem padDigits_one : ∀ x < 10, padDigits 1 x = [digitChar x] := by decide

theorem digitChar_eq_zero_iff : ∀ d < 10, (digitChar d = '0' ↔ d = 0) := by decide

theorem digitChar_mem_iff : ∀ d < 10,
    ((['0'] : List Char).contains (digitChar d) = true ↔ d = 0) := by decide

theorem dot_contains_digit {c : Char} (h : isDigitC c = true) :
    (['.'] : List Char).contains c = false := by
  have hc : 48 ≤ c.toNat ∧ c.toNat ≤ 57 := by simpa [isDigitC] using h
  simp only [List.contains_cons, List.contains_nil, Bool.or_false, beq_iff_eq,
    beq_eq_false_iff_ne, ne_eq]
  intro he
  rw [he] at hc
  revert hc
  decide

theorem zero_contains_dot : (['0'] : List Char).contains '.' = false := by decide

theorem foldl_digit_zero (j : ℕ) :
    List.foldl (fun a c => 10 * a + (c.toNat - 48)) 0 (List.replicate j '0') = 0 := by
  induction j with
  | zero => rfl
  | succ j ih =>
    rw [List.replicate_succ, List.foldl_cons]
    exact ih

theorem digitsVal_padDigits (w n : ℕ) : digitsVal (padDigits w n) = n := by
  unfold padDigits digitsVal
  rw [List.foldl_append, foldl_digit_zero]
  exact digitsVal_natRender n

theorem natRender_length_le {n w : ℕ} (hw : 1 ≤ w) (h : n < 10 ^ w) :
    (natRender n).length ≤ w := by
  rw [natRender_digits]
  by_cases h0 : n = 0
  · rw [if_pos h0]
    simpa using hw
  · rw [if_neg h0, List.length_reverse, List.length_map]
    rw [Nat.digits_len 10 n (by norm_num) h0]
    have := Nat.log_lt_of_lt_pow h0 h
    omega

theorem padDigits_length {w n : ℕ} (hw : 1 ≤ w) (h : n < 10 ^ w) :
    (padDigits w n).length = w := by
  unfold padDigits
  rw [List.length_append, List.length_replicate]
  have := natRender_length_le hw h
  omega

theorem padDigits_all_digits (w n : ℕ) : ∀ c ∈ padDigits w n, isDigitC c = true := by
  intro c hc
  unfold padDigits at hc
  rcases List.mem_append.mp hc with hm | hm
  · rw [List.eq_of_mem_replicate hm]
    decide
  · have hall := natRender_all_digits n
    rw [List.all_eq_true] at hall
    exact hall c hm

theorem padDigits_ne_nil {w n : ℕ} : padDigits w n ≠ [] := by
  unfold padDigits
  intro he
  exact natRender_ne_nil n (List.append_eq_nil.mp he).2

theorem natRender_head (n : ℕ) :
    ∃ d t, natRender n = d :: t ∧ isDigitC d = true := by
  cases hR : natRender n with
  | nil => exact absurd hR (natRender_ne_nil n)
  | cons d t =>
    refine ⟨d, t, rfl, ?_⟩
    have hall := natRender_all_digits n
    rw [List.all_eq_true] at hall
    exact hall d (by rw [hR]; exact List.mem_cons_self d t)

theorem takeWhile_all {p : Char → Bool} {s : Str} (h : ∀ c ∈ s, p c = true) :
    s.takeWhile p = s := by
  induction s with
  | nil => rfl
  | cons a t ih =>
    rw [List.takeWhile_cons, h a (List.mem_cons_self a t),
      ih (fun c hc => h c (List.mem_cons_of_mem a hc))]
    rw [if_pos rfl]

/-! ### Workload codec: fixed-2 rendering vs minimal rendering -/

theorem decRenderFull_natCast (n : ℕ) (k : ℕ) :
    decRenderFull ((n : ℤ)) k =
      natRender (n / 10 ^ k) ++ '.' :: padDigits k (n % 10 ^ k) := by
  unfold decRenderFull
  rw [if_neg (not_lt.mpr (Int.natCast_nonneg n)), Int.natAbs_ofNat, List.nil_append]

theorem intRender_natCast (n : ℕ) : intRender ((n : ℤ)) = natRender n := by
  rw [intRender_of_pos (Int.natCast_nonneg n), Int.natAbs_ofNat]

theorem natRender_no_dot (a : ℕ) :
    ∀ c ∈ natRender a, (['.'] : List Char).contains c = false := by
  intro c hc
  have hall := natRender_all_digits a
  rw [List.all_eq_true] at hall
  exact dot_contains_digit (hall c hc)

/-- Stripping trailing zeros and then a trailing point from the fixed
two-decimal rendering yields exactly the minimal rendering. -/
theorem strip_fixed2 {V : ℤ} (hV : 0 ≤ V) :
    rstripChar '.' (rstripChar '0' (decRenderFull V 2)) = decRenderMinimal V 2 := by
  obtain ⟨n, rfl⟩ : ∃ n : ℕ, V = (n : ℤ) := ⟨V.toNat, (Int.toNat_of_nonneg hV).symm⟩
  have hb : n % 100 < 100 := Nat.mod_lt _ (by norm_num)
  have hb10 : n % 100 / 10 < 10 := by omega
  have hbm10 : n % 100 % 10 < 10 := by omega
  have hfull : decRenderFull ((n : ℤ)) 2 =
      ((natRender (n / 100) ++ ['.']) ++ [digitChar (n % 100 / 10)]) ++
        [digitChar (n % 100 % 10)] := by
    rw [decRenderFull_natCast,
      show (10 : ℕ) ^ 2 = 100 from by norm_num,
      padDigits_two (n % 100) hb]
    simp
  by_cases h0 : n % 100 = 0
  · -- two trailing zeros: "x.00" strips to "x"
    have hd1 : digitChar (n % 100 / 10) = '0' := by
      rw [h0]
      decide
    have hd2 : digitChar (n % 100 % 10) = '0' := by
      rw [h0]
      decide
    have hlhs : rstripChar '.' (rstripChar '0' (decRenderFull ((n : ℤ)) 2)) =
        natRender (n / 100) := by
      rw [hfull, hd1, hd2]
      unfold rstripChar
      rw [rstripSet_append_drop ['0'] _
          (by decide : (['0'] : List Char).contains '0' = true),
        rstripSet_append_drop ['0'] _
          (by decide : (['0'] : List Char).contains '0' = true),
        rstripSet_append_keep ['0'] _ zero_contains_dot,
        rstripSet_append_drop ['.'] _
          (by decide : (['.'] : List Char).contains '.' = true)]
      exact rstripSet_all_keep _ (natRender_no_dot (n / 100))
    have hdvd : ((10 : ℤ) ^ 2) ∣ (n : ℤ) := by
      have hnat : (100 : ℕ) ∣ n := Nat.dvd_of_mod_eq_zero h0
      have h2 : ((100 : ℕ) : ℤ) ∣ ((n : ℕ) : ℤ) := Int.natCast_dvd_natCast.mpr hnat
      norm_num at h2 ⊢
      exact h2
    rw [hlhs]
    unfold decRenderMinimal
    rw [decReduce_of_dvd _ _ hdvd]
    show natRender (n / 100) = intRender (((n : ℤ)) / 10 ^ 2)
    rw [show ((n : ℤ)) / 10 ^ 2 = ((n / 100 : ℕ) : ℤ) from by
        rw [show ((10 : ℤ)) ^ 2 = ((100 : ℕ) : ℤ) from by norm_num]
        exact (Int.ofNat_ediv n 100).symm,
      intRender_natCast]
  · by_cases h10 : n % 10 = 0
    · -- one trailing zero: "x.d0" strips to "x.d"
      have hd2 : digitChar (n % 100 % 10) = '0' := by
        rw [show n % 100 % 10 = n % 10 from Nat.mod_mod_of_dvd n (by norm_num), h10]
        decide
      have hd1ne : (['0'] : List Char).contains (digitChar (n % 100 / 10)) = false := by
        have hq : n % 100 / 10 ≠ 0 := by omega
        rcases Bool.eq_false_or_eq_true
            ((['0'] : List Char).contains (digitChar (n % 100 / 10))) with h | h
        · exact absurd ((digitChar_mem_iff _ hb10).mp h) hq
        · exact h
      have hlhs : rstripChar '.' (rstripChar '0' (decRenderFull ((n : ℤ)) 2)) =
          (natRender (n / 100) ++ ['.']) ++ [digitChar (n % 100 / 10)] := by
        rw [hfull, hd2]
        unfold rstripChar
        rw [rstripSet_append_drop ['0'] _
            (by decide : (['0'] : List Char).contains '0' = true),
          rstripSet_append_keep ['0'] _ hd1ne,
          rstripSet_append_keep ['.'] _
            (dot_contains_digit (isDigitC_digitChar hb10))]
      rw [hlhs]
      have hdv : (10 : ℤ) ∣ ((n : ℤ)) := by
        have hnat : (10 : ℕ) ∣ n := Nat.dvd_of_mod_eq_zero h10
        exact_mod_cast Int.natCast_dvd_natCast.mpr hnat
      have hndv : ¬ (10 : ℤ) ∣ ((n : ℤ)) / 10 := by
        intro hc
        rw [show ((n : ℤ)) / 10 = ((n / 10 : ℕ) : ℤ) from (Int.ofNat_ediv n 10).symm]
          at hc
        have hnat : (10 : ℕ) ∣ n / 10 := by exact_mod_cast hc
        obtain ⟨c, hc2⟩ := hnat
        omega
      have hred : decReduce ((n : ℤ)) 2 = (((n / 10 : ℕ) : ℤ), 1) := by
        unfold decReduce
        rw [if_pos hdv]
        unfold decReduce
        rw [if_neg hndv]
        rw [show ((n : ℤ)) / 10 = ((n / 10 : ℕ) : ℤ) from (Int.ofNat_ediv n 10).symm]
      unfold decRenderMinimal
      rw [hred]
      show (natRender (n / 100) ++ ['.']) ++ [digitChar (n % 100 / 10)] =
        decRenderFull (((n / 10 : ℕ) : ℤ)) 1
      rw [decRenderFull_natCast, pow_one,
        padDigits_one (n / 10 % 10) (by omega),
        show n / 10 / 10 = n / 100 from by omega,
        show n / 10 % 10 = n % 100 / 10 from by omega]
      simp
    · -- no trailing zero: the string is already minimal
      have hd2ne : (['0'] : List Char).contains (digitChar (n % 100 % 10)) = false := by
        have hq : n % 100 % 10 ≠ 0 := by omega
        rcases Bool.eq_false_or_eq_true
            ((['0'] : List Char).contains (digitChar (n % 100 % 10))) with h | h
        · exact absurd ((digitChar_mem_iff _ hbm10).mp h) hq
        · exact h
      have hlhs : rstripChar '.' (rstripChar '0' (decRenderFull ((n : ℤ)) 2)) =
          decRenderFull ((n : ℤ)) 2 := by
        conv_lhs => rw [hfull]
        unfold rstripChar
        rw [rstripSet_append_keep ['0'] _ hd2ne,
          rstripSet_append_keep ['.'] _
            (dot_contains_digit (isDigitC_digitChar hbm10))]
        exact hfull.symm
      rw [hlhs]
      have hndv : ¬ (10 : ℤ) ∣ ((n : ℤ)) := by
        intro hc
        have hnat : (10 : ℕ) ∣ n := by exact_mod_cast hc
        obtain ⟨c, hc2⟩ := hnat
        omega
      have hred : decReduce ((n : ℤ)) 2 = (((n : ℤ)), 2) := by
        unfold decReduce
        rw [if_neg hndv]
      unfold decRenderMinimal
      rw [hred]
      rfl

/-- `_format_hours` always produces the minimal rendering of the
rounded value scaled to two decimals. -/
theorem formatHours_eq {q : ℚ} (h : 0 ≤ q) :
    formatHours q = decRenderMinimal (rhe ((roundTo 4 q) * 100)) 2 := by
  have hD : 0 ≤ roundTo 4 q := by
    unfold roundTo
    apply div_nonneg
    · exact_mod_cast rhe_nonneg (mul_nonneg h (by positivity))
    · positivity
  unfold formatHours
  simp only []
  by_cases hden : (roundTo 4 q).den = 1
  · rw [if_pos hden]
    have hval : (((roundTo 4 q).num : ℚ)) = roundTo 4 q := by
      conv_rhs => rw [← Rat.num_div_den (roundTo 4 q)]
      rw [hden]
      norm_num
    have hV : rhe ((roundTo 4 q) * 100) = (roundTo 4 q).num * 100 := by
      conv_lhs => rw [← hval]
      rw [show (((roundTo 4 q).num : ℚ)) * 100 =
          (((roundTo 4 q).num * 100 : ℤ) : ℚ) from by push_cast; ring]
      exact rhe_intCast _
    rw [hV]
    have hdvd : ((10 : ℤ) ^ 2) ∣ (roundTo 4 q).num * 100 :=
      ⟨(roundTo 4 q).num, by ring⟩
    unfold decRenderMinimal
    rw [decReduce_of_dvd _ _ hdvd]
    show intRender (roundTo 4 q).num = intRender ((roundTo 4 q).num * 100 / 10 ^ 2)
    congr 1
    rw [show ((10 : ℤ)) ^ 2 = 100 from by norm_num]
    exact (Int.mul_ediv_cancel _ (by norm_num)).symm
  · rw [if_neg hden]
    exact strip_fixed2 (rhe_nonneg (mul_nonneg hD (by norm_num)))

/-! ### Workload codec: parsing rendered decimals back -/

theorem natRender_all_digits_mem (a : ℕ) : ∀ c ∈ natRender a, isDigitC c = true := by
  have h := natRender_all_digits a
  rw [List.all_eq_true] at h
  exact h

theorem parseUnsignedDec_natRender (a : ℕ) :
    parseUnsignedDec (natRender a) = some ((a : ℚ)) := by
  unfold parseUnsignedDec
  simp only []
  rw [takeWhile_all (natRender_all_digits_mem a), List.drop_length]
  simp only []
  rw [isEmpty_eq_false_of_ne_nil (natRender_ne_nil a)]
  rw [if_neg Bool.false_ne_true, digitsVal_natRender]

theorem parseUnsignedDec_frac (a : ℕ) (ds : Str) (_hne : ds ≠ [])
    (hds : ∀ c ∈ ds, isDigitC c = true) :
    parseUnsignedDec (natRender a ++ '.' :: ds) =
      some ((a : ℚ) + (digitsVal ds : ℚ) / (10 : ℚ) ^ ds.length) := by
  unfold parseUnsignedDec
  simp only []
  have htw : (natRender a ++ '.' :: ds).takeWhile isDigitC = natRender a := by
    rw [takeWhile_append_of_all _ (natRender_all_digits_mem a), List.takeWhile_cons,
      show isDigitC '.' = false from rfl]
    simp
  rw [htw, List.drop_left]
  simp only []
  rw [takeWhile_all hds, List.drop_length]
  rw [if_neg (fun hc => hc rfl)]
  rw [isEmpty_eq_false_of_ne_nil (natRender_ne_nil a), Bool.false_and]
  rw [if_neg Bool.false_ne_true, digitsVal_natRender]

theorem matchNumeric_natRender (a : ℕ) :
    matchNumeric (natRender a) = some ((a : ℚ)) := by
  unfold matchNumeric
  simp only []
  rw [takeWhile_all (natRender_all_digits_mem a),
    isEmpty_eq_false_of_ne_nil (natRender_ne_nil a)]
  rw [if_neg Bool.false_ne_true, List.drop_length, digitsVal_natRender]
  rfl

theorem matchNumeric_frac (a : ℕ) (ds : Str) (hne : ds ≠ [])
    (hds : ∀ c ∈ ds, isDigitC c = true) :
    matchNumeric (natRender a ++ '.' :: ds) =
      some ((a : ℚ) + (digitsVal ds : ℚ) / (10 : ℚ) ^ ds.length) := by
  unfold matchNumeric
  simp only []
  have htw : (natRender a ++ '.' :: ds).takeWhile isDigitC = natRender a := by
    rw [takeWhile_append_of_all _ (natRender_all_digits_mem a), List.takeWhile_cons,
      show isDigitC '.' = false from rfl]
    simp
  rw [htw, isEmpty_eq_false_of_ne_nil (natRender_ne_nil a)]
  rw [if_neg Bool.false_ne_true, List.drop_left]
  simp only []
  rw [takeWhile_all hds, isEmpty_eq_false_of_ne_nil hne]
  norm_num
  exact digitsVal_natRender a

theorem nat_div_mod_q (na w : ℕ) :
    ((na / 10 ^ w : ℕ) : ℚ) + ((na % 10 ^ w : ℕ) : ℚ) / 10 ^ w =
      (na : ℚ) / 10 ^ w := by
  have h10 : ((10 : ℚ) ^ w) ≠ 0 := by positivity
  rw [eq_div_iff h10, add_mul, div_mul_cancel₀ _ h10]
  have h2 : na / 10 ^ w * 10 ^ w + na % 10 ^ w = na := by
    rw [mul_comm]
    exact Nat.div_add_mod na (10 ^ w)
  exact_mod_cast h2

theorem natAbs_cast_q {x : ℤ} (h : 0 ≤ x) : ((x.natAbs : ℕ) : ℚ) = ((x : ℤ) : ℚ) := by
  rw [Int.cast_natAbs, abs_of_nonneg h]

theorem renderFrac_value (na w : ℕ) (hw : 1 ≤ w) :
    ((na / 10 ^ w : ℕ) : ℚ) +
        ((digitsVal (padDigits w (na % 10 ^ w)) : ℕ) : ℚ) /
          (10 : ℚ) ^ (padDigits w (na % 10 ^ w)).length =
      (na : ℚ) / 10 ^ w := by
  rw [digitsVal_padDigits, padDigits_length hw (Nat.mod_lt _ (by positivity))]
  exact nat_div_mod_q na w

theorem parseUnsignedDec_minimal {m : ℤ} (k : ℕ) (hm : 0 ≤ m) :
    parseUnsignedDec (decRenderMinimal m k) = some ((m : ℚ) / 10 ^ k) := by
  have hnn : 0 ≤ (decReduce m k).1 := decReduce_nonneg k hm
  have hvv := decReduce_val m k
  unfold decRenderMinimal
  simp only []
  cases hsnd : (decReduce m k).2 with
  | zero =>
    rw [if_pos rfl, intRender_of_pos hnn, parseUnsignedDec_natRender]
    rw [hsnd] at hvv
    rw [pow_zero, div_one] at hvv
    rw [natAbs_cast_q hnn, hvv]
  | succ d =>
    rw [if_neg (Nat.succ_ne_zero d)]
    rw [show (decReduce m k).1 = (((decReduce m k).1.natAbs : ℕ) : ℤ) from
      (Int.natAbs_of_nonneg hnn).symm]
    rw [decRenderFull_natCast]
    rw [parseUnsignedDec_frac _ _ padDigits_ne_nil (padDigits_all_digits _ _)]
    rw [renderFrac_value _ _ (Nat.succ_le_succ (Nat.zero_le d))]
    rw [hsnd] at hvv
    rw [natAbs_cast_q hnn, hvv]

theorem matchNumeric_pyFloatRender {m : ℤ} (k : ℕ) (hm : 0 < m) :
    matchNumeric (pyFloatRender m k) = some ((m : ℚ) / 10 ^ k) := by
  have hpos : 0 < (decReduce m k).1 := decReduce_pos k hm
  have hnn : 0 ≤ (decReduce m k).1 := le_of_lt hpos
  have hvv := decReduce_val m k
  unfold pyFloatRender
  simp only []
  cases hsnd : (decReduce m k).2 with
  | zero =>
    rw [if_pos rfl, intRender_of_pos hnn]
    rw [show chars ".0" = '.' :: ['0'] from rfl]
    rw [matchNumeric_frac _ _ (by decide) (by decide)]
    rw [show digitsVal ['0'] = 0 from by decide]
    rw [hsnd] at hvv
    rw [pow_zero, div_one] at hvv
    rw [natAbs_cast_q hnn, hvv]
    norm_num
  | succ d =>
    rw [if_neg (Nat.succ_ne_zero d)]
    rw [if_neg (not_lt.mpr hnn), List.nil_append]
    rw [show (decReduce m k).1.natAbs / 10 ^ (d + 1) =
      ((decReduce m k).1.natAbs / 10 ^ (d + 1) : ℕ) from rfl]
    rw [List.append_assoc]
    rw [show (['.'] : Str) ++ padDigits (d + 1) ((decReduce m k).1.natAbs % 10 ^ (d + 1)) =
      '.' :: padDigits (d + 1) ((decReduce m k).1.natAbs % 10 ^ (d + 1)) from rfl]
    rw [matchNumeric_frac _ _ padDigits_ne_nil (padDigits_all_digits _ _)]
    rw [renderFrac_value _ _ (Nat.succ_le_succ (Nat.zero_le d))]
    rw [hsnd] at hvv
    rw [natAbs_cast_q hnn, hvv]

/-! ### Workload codec: skipping the non-numeric branches -/

theorem alook_none_of_pred {β : Type} (P : Str → Bool) (l : List (Str × β))
    (hkeys : l.all (fun p => ! P p.1) = true) {s : Str} (hs : P s = true) :
    alook l s = none := by
  induction l with
  | nil => rfl
  | cons q t ih =>
    obtain ⟨a, b⟩ := q
    rw [List.all_cons, Bool.and_eq_true] at hkeys
    unfold alook
    rw [if_neg (show ¬ a = s from fun he => by
      rw [he, hs] at hkeys
      exact absurd hkeys.1 (by decide))]
    exact ih hkeys.2

theorem ne_of_pred {P : Str → Bool} {s t : Str} (hs : P s = true)
    (ht : P t = false) : s ≠ t := by
  intro he
  rw [he, ht] at hs
  exact absurd hs (by decide)

theorem pyLowerChar_small {c : Char} (h1 : c.toNat < 192)
    (h2 : ¬ (65 ≤ c.toNat ∧ c.toNat ≤ 90)) : pyLowerChar c = c := by
  unfold pyLowerChar
  rw [if_neg h2,
    if_neg (show ¬ c = 'É' from fun he => by rw [he] at h1; revert h1; decide),
    if_neg (show ¬ c = 'È' from fun he => by rw [he] at h1; revert h1; decide),
    if_neg (show ¬ c = 'Ê' from fun he => by rw [he] at h1; revert h1; decide),
    if_neg (show ¬ c = 'Ë' from fun he => by rw [he] at h1; revert h1; decide),
    if_neg (show ¬ c = 'À' from fun he => by rw [he] at h1; revert h1; decide),
    if_neg (show ¬ c = 'Â' from fun he => by rw [he] at h1; revert h1; decide),
    if_neg (show ¬ c = 'Î' from fun he => by rw [he] at h1; revert h1; decide),
    if_neg (show ¬ c = 'Ï' from fun he => by rw [he] at h1; revert h1; decide),
    if_neg (show ¬ c = 'Ô' from fun he => by rw [he] at h1; revert h1; decide),
    if_neg (show ¬ c = 'Ù' from fun he => by rw [he] at h1; revert h1; decide),
    if_neg (show ¬ c = 'Û' from fun he => by rw [he] at h1; revert h1; decide),
    if_neg (show ¬ c = 'Ü' from fun he => by rw [he] at h1; revert h1; decide),
    if_neg (show ¬ c = 'Ç' from fun he => by rw [he] at h1; revert h1; decide)]

theorem digit_class {c : Char} (h : isDigitC c = true) :
    c.toNat < 192 ∧ ¬ (65 ≤ c.toNat ∧ c.toNat ≤ 90) := by
  have hc : 48 ≤ c.toNat ∧ c.toNat ≤ 57 := by simpa [isDigitC] using h
  omega

theorem decRenderFull_chars (n : ℕ) (k : ℕ) :
    ∀ c ∈ decRenderFull ((n : ℤ)) k, isDigitC c = true ∨ c = '.' := by
  intro c hc
  rw [decRenderFull_natCast] at hc
  rcases List.mem_append.mp hc with h | h
  · exact Or.inl (natRender_all_digits_mem _ c h)
  · rcases List.mem_cons.mp h with h | h
    · exact Or.inr h
    · exact Or.inl (padDigits_all_digits _ _ c h)

theorem decRenderMinimal_chars {m : ℤ} (k : ℕ) (hm : 0 ≤ m) :
    ∀ c ∈ decRenderMinimal m k, isDigitC c = true ∨ c = '.' := by
  have hnn := decReduce_nonneg k hm
  unfold decRenderMinimal
  simp only []
  cases hsnd : (decReduce m k).2 with
  | zero =>
    rw [if_pos rfl, intRender_of_pos hnn]
    intro c hc
    exact Or.inl (natRender_all_digits_mem _ c hc)
  | succ d =>
    rw [if_neg (Nat.succ_ne_zero d)]
    rw [show (decReduce m k).1 = (((decReduce m k).1.natAbs : ℕ) : ℤ) from
      (Int.natAbs_of_nonneg hnn).symm]
    exact decRenderFull_chars _ _

theorem decRenderMinimal_head {m : ℤ} (k : ℕ) (hm : 0 ≤ m) :
    ∃ d t, decRenderMinimal m k = d :: t ∧ isDigitC d = true := by
  have hnn := decReduce_nonneg k hm
  unfold decRenderMinimal
  simp only []
  cases hsnd : (decReduce m k).2 with
  | zero =>
    rw [if_pos rfl, intRender_of_pos hnn]
    exact natRender_head _
  | succ d =>
    rw [if_neg (Nat.succ_ne_zero d)]
    rw [show (decReduce m k).1 = (((decReduce m k).1.natAbs : ℕ) : ℤ) from
      (Int.natAbs_of_nonneg hnn).symm]
    rw [decRenderFull_natCast]
    obtain ⟨e, t, hdt, he⟩ := natRender_head ((decReduce m k).1.natAbs / 10 ^ (d + 1))
    refine ⟨e, t ++ '.' :: padDigits (d + 1) ((decReduce m k).1.natAbs % 10 ^ (d + 1)),
      ?_, he⟩
    rw [hdt, List.cons_append]

theorem reverse_head_of_ne_nil {l : List Char} (h : l ≠ []) :
    ∃ d t, l.reverse = d :: t ∧ d ∈ l := by
  cases hR : l.reverse with
  | nil => exact absurd (List.reverse_eq_nil_iff.mp hR) h
  | cons d t =>
    refine ⟨d, t, rfl, ?_⟩
    have hm : d ∈ l.reverse := by
      rw [hR]
      exact List.mem_cons_self d t
    exact List.mem_reverse.mp hm

theorem decRenderMinimal_last {m : ℤ} (k : ℕ) (hm : 0 ≤ m) :
    ∃ d t, (decRenderMinimal m k).reverse = d :: t ∧ isDigitC d = true := by
  have hnn := decReduce_nonneg k hm
  unfold decRenderMinimal
  simp only []
  cases hsnd : (decReduce m k).2 with
  | zero =>
    rw [if_pos rfl, intRender_of_pos hnn]
    obtain ⟨d, t, hdt, hmem⟩ := reverse_head_of_ne_nil (natRender_ne_nil _)
    exact ⟨d, t, hdt, natRender_all_digits_mem _ d hmem⟩
  | succ d =>
    rw [if_neg (Nat.succ_ne_zero d)]
    rw [show (decReduce m k).1 = (((decReduce m k).1.natAbs : ℕ) : ℤ) from
      (Int.natAbs_of_nonneg hnn).symm]
    rw [decRenderFull_natCast]
    obtain ⟨e, t, hdt, hmem⟩ := reverse_head_of_ne_nil
      (padDigits_ne_nil (w := d + 1) (n := (decReduce m k).1.natAbs % 10 ^ (d + 1)))
    refine ⟨e, t ++ '.' :: (natRender ((decReduce m k).1.natAbs / 10 ^ (d + 1))).reverse,
      ?_, padDigits_all_digits _ _ e hmem⟩
    rw [List.reverse_append, List.reverse_cons, hdt]
    simp

theorem splitFirst_none {c : Char} {s : Str} (h : ∀ x ∈ s, x ≠ c) :
    splitFirst c s = Option.none := by
  induction s with
  | nil => rfl
  | cons a t ih =>
    unfold splitFirst
    rw [if_neg (h a (List.mem_cons_self a t)),
      ih (fun x hx => h x (List.mem_cons_of_mem a hx))]
    rfl

theorem lstripSet_cons_drop {cs : List Char} {c : Char} (h : cs.contains c = true)
    (s : Str) : lstripSet cs (c :: s) = lstripSet cs s := by
  unfold lstripSet
  rw [List.dropWhile_cons]
  rw [h, if_pos rfl]

theorem lstripSet_cons_keep {cs : List Char} {c : Char} (h : cs.contains c = false)
    (s : Str) : lstripSet cs (c :: s) = c :: s := by
  unfold lstripSet
  rw [List.dropWhile_cons]
  rw [h, if_neg Bool.false_ne_true]

theorem okStripSet_digit {c : Char} (h : isDigitC c = true) :
    (([' ', ':', '_', '-'] : List Char).contains c) = false := by
  have hc : 48 ≤ c.toNat ∧ c.toNat ≤ 57 := by simpa [isDigitC] using h
  rcases Bool.eq_false_or_eq_true
      (([' ', ':', '_', '-'] : List Char).contains c) with hh | hh
  · exfalso
    have hmem : c ∈ ([' ', ':', '_', '-'] : List Char) := by
      simpa using hh
    simp only [List.mem_cons, List.mem_singleton, List.not_mem_nil] at hmem
    rcases hmem with he | he | he | he | he
    · rw [he] at hc; revert hc; decide
    · rw [he] at hc; revert hc; decide
    · rw [he] at hc; revert hc; decide
    · rw [he] at hc; revert hc; decide
    · exact he
  · exact hh

theorem isPyWS_dot : isPyWS '.' = false := by decide

theorem isPyWS_of_digit_dot {c : Char} (h : isDigitC c = true ∨ c = '.') :
    isPyWS c = false := by
  rcases h with h | h
  · exact isPyWS_digit h
  · rw [h]
    decide

/-! ### Workload codec: decoding rendered numbers -/

theorem hasPfx_false_head {p s : Str} {a b : Char} {pt st : Str}
    (hp : p = a :: pt) (hs : s = b :: st) (hne : a ≠ b) : hasPfx p s = false := by
  rw [hp, hs]
  simp [hasPfx, hne]

theorem formatHours_natCast (a : ℕ) : formatHours ((a : ℚ)) = intRender ((a : ℤ)) := by
  unfold formatHours
  simp only []
  rw [roundTo_eq_self (show ((a : ℚ)) * 10 ^ 4 = (((a * 10 ^ 4 : ℤ)) : ℚ) from by
    push_cast
    ring)]
  rw [if_pos (Rat.den_natCast a)]
  rw [Rat.num_natCast]

theorem formatHours_float {m : ℤ} {k : ℕ} (hk : k ≤ 2) (hm : 0 < m) :
    formatHours ((m : ℚ) / 10 ^ k) = decRenderMinimal m k := by
  have hm0 : (0 : ℚ) ≤ (m : ℚ) := by exact_mod_cast le_of_lt hm
  have hq : 0 ≤ (m : ℚ) / 10 ^ k := div_nonneg hm0 (by positivity)
  rw [formatHours_eq hq]
  rw [roundTo_eq_self (decMul_cast m k 4 (by omega))]
  rw [show ((m : ℚ) / 10 ^ k) * 100 = ((m * 10 ^ (2 - k) : ℤ) : ℚ) from by
    have h2 := decMul_cast m k 2 hk
    norm_num at h2 ⊢
    exact h2]
  rw [rhe_intCast]
  have hshift : decRenderMinimal (m * 10 ^ (2 - k)) 2 = decRenderMinimal m k := by
    set j := 2 - k with hj
    rw [show (2 : ℕ) = k + j from by omega]
    unfold decRenderMinimal
    rw [decReduce_shift]
  exact hshift

theorem pyFloatRender_chars {m : ℤ} (k : ℕ) (hm : 0 < m) :
    ∀ x ∈ pyFloatRender m k, isDigitC x = true ∨ x = '.' := by
  have hnn : 0 ≤ (decReduce m k).1 := le_of_lt (decReduce_pos k hm)
  unfold pyFloatRender
  simp only []
  cases hsnd : (decReduce m k).2 with
  | zero =>
    rw [if_pos rfl, intRender_of_pos hnn]
    intro x hx
    rcases List.mem_append.mp hx with h | h
    · exact Or.inl (natRender_all_digits_mem _ x h)
    · rw [show chars ".0" = ['.', '0'] from rfl] at h
      rcases List.mem_cons.mp h with h | h
      · exact Or.inr h
      · rcases List.mem_cons.mp h with h | h
        · rw [h]
          exact Or.inl (by decide)
        · exact absurd h (List.not_mem_nil x)
  | succ d =>
    rw [if_neg (Nat.succ_ne_zero d), if_neg (not_lt.mpr hnn), List.nil_append]
    intro x hx
    rcases List.mem_append.mp hx with h | h
    · rcases List.mem_append.mp h with h2 | h2
      · exact Or.inl (natRender_all_digits_mem _ x h2)
      · rcases List.mem_cons.mp h2 with h3 | h3
        · exact Or.inr h3
        · exact absurd h3 (List.not_mem_nil x)
    · exact Or.inl (padDigits_all_digits _ _ x h)

theorem pyFloatRender_head {m : ℤ} (k : ℕ) (hm : 0 < m) :
    ∃ d t, pyFloatRender m k = d :: t ∧ isDigitC d = true := by
  have hnn : 0 ≤ (decReduce m k).1 := le_of_lt (decReduce_pos k hm)
  unfold pyFloatRender
  simp only []
  cases hsnd : (decReduce m k).2 with
  | zero =>
    rw [if_pos rfl, intRender_of_pos hnn]
    obtain ⟨e, t, hdt, he⟩ := natRender_head (decReduce m k).1.natAbs
    exact ⟨e, t ++ chars ".0", by rw [hdt, List.cons_append], he⟩
  | succ d =>
    rw [if_neg (Nat.succ_ne_zero d), if_neg (not_lt.mpr hnn), List.nil_append]
    obtain ⟨e, t, hdt, he⟩ := natRender_head ((decReduce m k).1.natAbs / 10 ^ (d + 1))
    refine ⟨e, (t ++ ['.']) ++ padDigits (d + 1) ((decReduce m k).1.natAbs % 10 ^ (d + 1)),
      ?_, he⟩
    rw [hdt, List.cons_append, List.cons_append]

/-- Decoding any raw cell whose Python `str()` renders a positive number
other than 4 and 8: the generic pipeline shared by string, integer and
float raw cells. -/
theorem decode_str_render (raw : WRaw) {s : Str} (r c : ℕ) {v : ℚ}
    (hw : wrawStr raw = s)
    (hshape : (∃ u, raw = WRaw.str u) ∨ (∃ i, raw = WRaw.int i) ∨
      (∃ a b, raw = WRaw.float a b))
    (hchars : ∀ x ∈ s, isDigitC x = true ∨ x = '.')
    (hhead : ∃ d t, s = d :: t ∧ isDigitC d = true)
    (hnum : matchNumeric s = some v)
    (hpos : 0 < v) (h4 : v ≠ 4) (h8 : v ≠ 8) :
    normalizeWorkloadCell raw r c =
      .ok (some (chars "ok" ++ ':' :: formatHours v)) := by
  obtain ⟨d, t, hdt, hd⟩ := hhead
  have hne : s ≠ [] := by
    rw [hdt]
    exact List.cons_ne_nil d t
  have hstrip : stripWS s = s :=
    stripWS_eq_self (fun x hx => isPyWS_of_digit_dot (hchars x hx))
  have hlower : pyLower s = s :=
    map_eq_self_of (fun x hx => by
      rcases hchars x hx with hxx | hxx
      · exact pyLowerChar_small (digit_class hxx).1 (digit_class hxx).2
      · rw [hxx]
        decide)
  have hall : s.all (fun x => isDigitC x || x = '.') = true := by
    rw [List.all_eq_true]
    intro x hx
    rcases hchars x hx with hxx | hxx
    · simp [hxx]
    · simp [hxx]
  have halias : alook workloadStateAliases s = none := by
    apply alook_none_of_pred (fun u => u.all (fun x => isDigitC x || x = '.') && ! u.isEmpty)
    · decide
    · rw [hall, isEmpty_eq_false_of_ne_nil hne]
      rfl
  have h4a : s ≠ chars "4" := fun he => by
    rw [he, show matchNumeric (chars "4") = some ((4 : ℚ)) from by
      with_unfolding_all decide] at hnum
    exact h4 (Option.some_inj.mp hnum).symm
  have h4b : s ≠ chars "4h" := fun he => by
    rw [he, show matchNumeric (chars "4h") = some ((4 : ℚ)) from by
      with_unfolding_all decide] at hnum
    exact h4 (Option.some_inj.mp hnum).symm
  have h8a : s ≠ chars "8" := fun he => by
    rw [he, show matchNumeric (chars "8") = some ((8 : ℚ)) from by
      with_unfolding_all decide] at hnum
    exact h8 (Option.some_inj.mp hnum).symm
  have h8b : s ≠ chars "8h" := fun he => by
    rw [he, show matchNumeric (chars "8h") = some ((8 : ℚ)) from by
      with_unfolding_all decide] at hnum
    exact h8 (Option.some_inj.mp hnum).symm
  have hokpfx : hasPfx (chars "ok") s = false :=
    hasPfx_false_head (by decide : chars "ok" = 'o' :: ['k']) hdt
      (fun he => by rw [← he] at hd; revert hd; decide)
  have hsplit : splitFirst ':' s = Option.none :=
    splitFirst_none (fun x hx he => by
      rcases hchars x hx with hxx | hxx
      · rw [he] at hxx
        revert hxx
        decide
      · rw [he] at hxx
        revert hxx
        decide)
  rcases hshape with ⟨u, rfl⟩ | ⟨i, rfl⟩ | ⟨a, b, rfl⟩ <;>
  · unfold normalizeWorkloadCell
    simp only []
    rw [hw]
    rw [hstrip, isEmpty_eq_false_of_ne_nil hne]
    rw [if_neg Bool.false_ne_true]
    rw [hlower, halias]
    simp only []
    rw [if_neg (show ¬ (s = chars "4" ∨ s = chars "4h") from
      fun hc => hc.elim h4a h4b)]
    rw [if_neg (show ¬ (s = chars "8" ∨ s = chars "8h") from
      fun hc => hc.elim h8a h8b)]
    rw [hokpfx]
    rw [if_neg Bool.false_ne_true]
    rw [hsplit]
    simp only []
    rw [hnum]
    simp only []
    rw [if_neg (not_le.mpr hpos), if_neg h4, if_neg h8]

/-- Decoding an integer raw cell goes through `str(n)` and the numeric
regex. -/
theorem decode_int (n : ℤ) (r c : ℕ) (hpos : 0 < n) (h4 : n ≠ 4) (h8 : n ≠ 8) :
    normalizeWorkloadCell (.int n) r c =
      .ok (some (chars "ok" ++ ':' :: intRender n)) := by
  have hIR : intRender n = natRender n.natAbs := intRender_of_pos (le_of_lt hpos)
  have hres := decode_str_render (WRaw.int n) (s := natRender n.natAbs) r c
    (v := ((n.natAbs : ℕ) : ℚ))
    (by rw [show wrawStr (WRaw.int n) = intRender n from rfl, hIR])
    (Or.inr (Or.inl ⟨n, rfl⟩))
    (fun x hx => Or.inl (natRender_all_digits_mem _ x hx))
    (natRender_head _)
    (matchNumeric_natRender _)
    (by exact_mod_cast (by omega : 0 < n.natAbs))
    (by
      intro he
      have ha : n.natAbs = 4 := by exact_mod_cast he
      omega)
    (by
      intro he
      have ha : n.natAbs = 8 := by exact_mod_cast he
      omega)
  rw [hres, formatHours_natCast]
  rw [show ((n.natAbs : ℕ) : ℤ) = n from Int.natAbs_of_nonneg (le_of_lt hpos)]

/-- Decoding a float raw cell: the value `m / 10^k` with at most two
decimals round-trips to `ok:` followed by its minimal rendering. -/
theorem decode_float (m : ℤ) (k : ℕ) (r c : ℕ) (hk : k ≤ 2) (hm : 0 < m)
    (h4 : (m : ℚ) / 10 ^ k ≠ 4) (h8 : (m : ℚ) / 10 ^ k ≠ 8) :
    normalizeWorkloadCell (.float m k) r c =
      .ok (some (chars "ok" ++ ':' :: decRenderMinimal m k)) := by
  have hm0 : (0 : ℚ) < (m : ℚ) := by exact_mod_cast hm
  have hres := decode_str_render (WRaw.float m k) (s := pyFloatRender m k) r c
    (v := (m : ℚ) / 10 ^ k)
    rfl
    (Or.inr (Or.inr ⟨m, k, rfl⟩))
    (pyFloatRender_chars k hm)
    (pyFloatRender_head k hm)
    (matchNumeric_pyFloatRender k hm)
    (div_pos hm0 (by positivity)) h4 h8
  rw [hres, formatHours_float hk hm]

/-! ### Workload codec: re-decoding exported tokens -/

theorem alook_val_mem {β : Type} (l : List (Str × β)) (s : Str) (v : β)
    (h : alook l s = some v) : v ∈ l.map Prod.snd := by
  induction l with
  | nil => exact absurd h (by simp [alook])
  | cons q tl ih =>
    obtain ⟨a, b⟩ := q
    unfold alook at h
    by_cases he : a = s
    · rw [if_pos he] at h
      rw [List.map_cons]
      have hb : b = v := Option.some_inj.mp h
      rw [← hb]
      exact List.mem_cons_self b _
    · rw [if_neg he] at h
      exact List.mem_cons_of_mem _ (ih h)

theorem pyParseFloat_digit_head {s : Str} {d : Char} {t : Str} (hdt : s = d :: t)
    (hd : isDigitC d = true) (hstrip : stripWS s = s) :
    pyParseFloat s = parseUnsignedDec s := by
  have hd1 : d ≠ '-' := fun he => by rw [he] at hd; revert hd; decide
  have hd2 : d ≠ '+' := fun he => by rw [he] at hd; revert hd; decide
  unfold pyParseFloat
  rw [hstrip, hdt]
  split
  · next u heq =>
    injection heq with h1 h2
    exact absurd h1 hd1
  · next u heq =>
    injection heq with h1 h2
    exact absurd h1 hd2
  · rfl

theorem parseHoursValue_minimal {V : ℤ} (r c : ℕ) (hV : 0 < V) :
    parseHoursValue (decRenderMinimal V 2) r c = .ok (decRenderMinimal V 2) := by
  have hVnn : 0 ≤ V := le_of_lt hV
  have schars := decRenderMinimal_chars 2 hVnn
  obtain ⟨d, t, hdt, hd⟩ := decRenderMinimal_head 2 hVnn
  obtain ⟨e, tr, hrev, he⟩ := decRenderMinimal_last 2 hVnn
  have hne : decRenderMinimal V 2 ≠ [] := by
    rw [hdt]
    exact List.cons_ne_nil d t
  have hstrip : stripWS (decRenderMinimal V 2) = decRenderMinimal V 2 :=
    stripWS_eq_self (fun x hx => isPyWS_of_digit_dot (schars x hx))
  have hlower : pyLower (decRenderMinimal V 2) = decRenderMinimal V 2 :=
    map_eq_self_of (fun x hx => by
      rcases schars x hx with hxx | hxx
      · exact pyLowerChar_small (digit_class hxx).1 (digit_class hxx).2
      · rw [hxx]
        decide)
  have hsfx : ∀ p : Str, ∀ a : Char, ∀ pt : Str, p.reverse = a :: pt →
      isDigitC a = false → hasSfx p (decRenderMinimal V 2) = false := by
    intro p a pt hpa hna
    unfold hasSfx
    exact hasPfx_false_head hpa hrev
      (fun heq => by rw [heq, he] at hna; exact absurd hna (by decide))
  have hmap : (decRenderMinimal V 2).map (fun ch => if ch = ',' then '.' else ch) =
      decRenderMinimal V 2 :=
    map_eq_self_of (fun x hx => by
      rcases schars x hx with hxx | hxx
      · rw [if_neg (show ¬ x = ',' from fun heq => by
          rw [heq] at hxx; revert hxx; decide)]
      · rw [hxx]
        decide)
  unfold parseHoursValue
  simp only []
  rw [hstrip, hlower]
  rw [hsfx (chars "heures") 's' ['e', 'r', 'u', 'e', 'h'] (by decide) (by decide)]
  rw [if_neg Bool.false_ne_true]
  rw [hsfx (chars "hours") 's' ['r', 'u', 'o', 'h'] (by decide) (by decide)]
  rw [if_neg Bool.false_ne_true]
  rw [hsfx (chars "heure") 'e' ['r', 'u', 'e', 'h'] (by decide) (by decide)]
  rw [if_neg Bool.false_ne_true]
  rw [hsfx (chars "hour") 'r' ['u', 'o', 'h'] (by decide) (by decide)]
  rw [if_neg Bool.false_ne_true]
  rw [hsfx (chars "h") 'h' [] (by decide) (by decide)]
  rw [if_neg Bool.false_ne_true]
  rw [hstrip, hmap, isEmpty_eq_false_of_ne_nil hne, if_neg Bool.false_ne_true]
  rw [pyParseFloat_digit_head hdt hd hstrip]
  rw [parseUnsignedDec_minimal 2 hVnn]
  simp only []
  have hvpos : (0 : ℚ) < (V : ℚ) / 10 ^ 2 := by
    apply div_pos
    · exact_mod_cast hV
    · positivity
  rw [if_neg (not_le.mpr hvpos)]
  rw [formatHours_float (le_refl 2) hV]

theorem decRenderMinimal_zero {V : ℤ} (hV : 0 ≤ V)
    (he : decRenderMinimal V 2 = chars "0") : V = 0 := by
  have hp := parseUnsignedDec_minimal 2 hV
  rw [he] at hp
  rw [show parseUnsignedDec (chars "0") = some ((0 : ℚ)) from by
    with_unfolding_all decide] at hp
  have h0 : (0 : ℚ) = (V : ℚ) / 10 ^ 2 := Option.some_inj.mp hp
  have hV0 : (V : ℚ) = 0 := by
    field_simp at h0
    linarith [h0]
  exact_mod_cast hV0

theorem decode_ok_token {V : ℤ} (r c : ℕ) (hV : 0 < V) :
    normalizeWorkloadCell (.str (chars "ok" ++ ':' :: decRenderMinimal V 2)) r c =
      .ok (some (chars "ok" ++ ':' :: decRenderMinimal V 2)) := by
  have hVnn : 0 ≤ V := le_of_lt hV
  have schars := decRenderMinimal_chars 2 hVnn
  obtain ⟨d, t, hdt, hd⟩ := decRenderMinimal_head 2 hVnn
  have hT : chars "ok" ++ ':' :: decRenderMinimal V 2 =
      'o' :: 'k' :: ':' :: decRenderMinimal V 2 := rfl
  have hTchars : ∀ x ∈ chars "ok" ++ ':' :: decRenderMinimal V 2,
      isPyWS x = false ∧ pyLowerChar x = x := by
    intro x hx
    rw [hT] at hx
    rcases List.mem_cons.mp hx with hxx | hx2
    · rw [hxx]
      exact ⟨by decide, by decide⟩
    · rcases List.mem_cons.mp hx2 with hxx | hx3
      · rw [hxx]
        exact ⟨by decide, by decide⟩
      · rcases List.mem_cons.mp hx3 with hxx | hx4
        · rw [hxx]
          exact ⟨by decide, by decide⟩
        · rcases schars x hx4 with hxx | hxx
          · exact ⟨isPyWS_digit hxx,
              pyLowerChar_small (digit_class hxx).1 (digit_class hxx).2⟩
          · rw [hxx]
            exact ⟨by decide, by decide⟩
  have hTne : chars "ok" ++ ':' :: decRenderMinimal V 2 ≠ [] := by
    rw [hT]
    exact List.cons_ne_nil _ _
  have hstrip : stripWS (chars "ok" ++ ':' :: decRenderMinimal V 2) =
      chars "ok" ++ ':' :: decRenderMinimal V 2 :=
    stripWS_eq_self (fun x hx => (hTchars x hx).1)
  have hlower : pyLower (chars "ok" ++ ':' :: decRenderMinimal V 2) =
      chars "ok" ++ ':' :: decRenderMinimal V 2 :=
    map_eq_self_of (fun x hx => (hTchars x hx).2)
  have hanyc : (chars "ok" ++ ':' :: decRenderMinimal V 2).any
      (fun x => x = ':') = true := by
    rw [hT]
    simp
  have halias : alook workloadStateAliases
      (chars "ok" ++ ':' :: decRenderMinimal V 2) = none :=
    alook_none_of_pred (fun u => u.any (fun x => x = ':')) _ (by decide) hanyc
  unfold normalizeWorkloadCell
  simp only []
  rw [show wrawStr (WRaw.str (chars "ok" ++ ':' :: decRenderMinimal V 2)) =
    chars "ok" ++ ':' :: decRenderMinimal V 2 from rfl]
  rw [hstrip, isEmpty_eq_false_of_ne_nil hTne, if_neg Bool.false_ne_true]
  rw [hlower, halias]
  simp only []
  rw [if_neg (show ¬ (chars "ok" ++ ':' :: decRenderMinimal V 2 = chars "4" ∨
      chars "ok" ++ ':' :: decRenderMinimal V 2 = chars "4h") from
    fun hc => hc.elim
      (ne_of_pred (P := fun u => u.any (fun x => x = ':')) hanyc (by decide))
      (ne_of_pred (P := fun u => u.any (fun x => x = ':')) hanyc (by decide)))]
  rw [if_neg (show ¬ (chars "ok" ++ ':' :: decRenderMinimal V 2 = chars "8" ∨
      chars "ok" ++ ':' :: decRenderMinimal V 2 = chars "8h") from
    fun hc => hc.elim
      (ne_of_pred (P := fun u => u.any (fun x => x = ':')) hanyc (by decide))
      (ne_of_pred (P := fun u => u.any (fun x => x = ':')) hanyc (by decide)))]
  rw [hasPfx_append (chars "ok") (':' :: decRenderMinimal V 2), if_pos rfl]
  rw [show (chars "ok" ++ ':' :: decRenderMinimal V 2).drop 2 =
    ':' :: decRenderMinimal V 2 from rfl]
  rw [lstripSet_cons_drop (by decide)]
  rw [hdt, lstripSet_cons_keep (okStripSet_digit hd), ← hdt]
  rw [isEmpty_eq_false_of_ne_nil (by rw [hdt]; exact List.cons_ne_nil d t),
    if_neg Bool.false_ne_true]
  rw [parseHoursValue_minimal r c hV]

theorem workload_alias_values (st : Str)
    (hmem : st ∈ workloadStateAliases.map Prod.snd) :
    st = chars "warn" ∨ st = chars "bad" ∨ st = chars "ok" := by
  have hall : (workloadStateAliases.map Prod.snd).all
      (fun v => v = chars "warn" || v = chars "bad" || v = chars "ok") = true := by
    decide
  rw [List.all_eq_true] at hall
  have hv := hall st hmem
  simp only [Bool.or_eq_true, decide_eq_true_eq] at hv
  tauto

theorem parseHoursTail_image {w u : Str} {r c : ℕ} {h : Str}
    (hp : (if w.isEmpty then Except.error (formatWorkloadError u r c)
           else
             match pyParseFloat w with
             | Option.none => Except.error (formatWorkloadError u r c)
             | some value =>
               if value ≤ 0 then Except.error (formatWorkloadError u r c)
               else Except.ok (formatHours value)) = Except.ok h) :
    ∃ V : ℤ, 0 ≤ V ∧ h = decRenderMinimal V 2 := by
  split at hp
  · exact absurd hp (by simp)
  · split at hp
    · exact absurd hp (by simp)
    · next v heq =>
      split at hp
      · exact absurd hp (by simp)
      · next hle =>
        have hv : 0 ≤ v := le_of_lt (not_le.mp hle)
        refine ⟨rhe ((roundTo 4 v) * 100), rhe_nonneg ?_, ?_⟩
        · have hv0 : 0 ≤ roundTo 4 v := by
            unfold roundTo
            apply div_nonneg
            · exact_mod_cast rhe_nonneg (mul_nonneg hv (by positivity))
            · positivity
          exact mul_nonneg hv0 (by norm_num)
        · have hfh : formatHours v = h := by simpa using hp
          rw [← hfh]
          exact formatHours_eq hv

theorem parseHoursValue_image {u : Str} {r c : ℕ} {h : Str}
    (hp : parseHoursValue u r c = .ok h) :
    ∃ V : ℤ, 0 ≤ V ∧ h = decRenderMinimal V 2 := by
  unfold parseHoursValue at hp
  simp only [] at hp
  exact parseHoursTail_image hp

/-- Everything `_normalize_workload_cell_value` can return on success is
`warn`, `bad`, `ok`, or `ok:` followed by a minimal decimal rendering. -/
theorem decode_image (raw : WRaw) (r c : ℕ) (t : Str)
    (hdec : normalizeWorkloadCell raw r c = .ok (some t)) :
    t = chars "warn" ∨ t = chars "bad" ∨ t = chars "ok" ∨
      ∃ V : ℤ, 0 ≤ V ∧ t = chars "ok" ++ ':' :: decRenderMinimal V 2 := by
  cases raw
  case none =>
    rw [show normalizeWorkloadCell WRaw.none r c = Except.ok Option.none from rfl]
      at hdec
    simp at hdec
  case nan =>
    rw [show normalizeWorkloadCell WRaw.nan r c = Except.ok Option.none from rfl]
      at hdec
    simp at hdec
  all_goals (
    unfold normalizeWorkloadCell at hdec
    simp only [] at hdec
    split at hdec
    · simp at hdec
    · split at hdec
      · next st heq =>
        have hst : st = t := by simpa using hdec
        rw [hst] at heq
        rcases workload_alias_values t (alook_val_mem _ _ _ heq) with h | h | h
        · exact Or.inl h
        · exact Or.inr (Or.inl h)
        · exact Or.inr (Or.inr (Or.inl h))
      · split at hdec
        · have hw : chars "warn" = t := by simpa using hdec
          exact Or.inl hw.symm
        · split at hdec
          · have hw : chars "bad" = t := by simpa using hdec
            exact Or.inr (Or.inl hw.symm)
          · split at hdec
            · -- `ok` prefix
              split at hdec
              · have hw : chars "ok" = t := by simpa using hdec
                exact Or.inr (Or.inr (Or.inl hw.symm))
              · split at hdec
                · simp at hdec
                · next hh heq =>
                  obtain ⟨V, hVnn, hhV⟩ := parseHoursValue_image heq
                  refine Or.inr (Or.inr (Or.inr ⟨V, hVnn, ?_⟩))
                  have ht : chars "ok" ++ ':' :: hh = t := by simpa using hdec
                  rw [← ht, hhV]
            · -- colon fall-through and numeric branches
              split at hdec
              · next st heq =>
                split at hdec
                · next hok =>
                  split at hdec
                  · simp at hdec
                  · next hh heq2 =>
                    obtain ⟨V, hVnn, hhV⟩ := parseHoursValue_image heq2
                    refine Or.inr (Or.inr (Or.inr ⟨V, hVnn, ?_⟩))
                    have ht : chars "ok" ++ ':' :: hh = t := by simpa using hdec
                    rw [← ht, hhV]
                · next hok =>
                  have hst : st = t := by simpa using hdec
                  rw [hst] at hok heq
                  split at heq
                  · next q heq3 =>
                    split at heq
                    · next st0 heq4 =>
                      have hst0 : st0 = t := by simpa using heq
                      rw [hst0] at heq4
                      rcases workload_alias_values t (alook_val_mem _ _ _ heq4)
                          with h | h | h
                      · exact Or.inl h
                      · exact Or.inr (Or.inl h)
                      · exact absurd h hok
                    · simp at heq
                  · simp at heq
              · split at hdec
                · next number heq =>
                  split at hdec
                  · simp at hdec
                  · next hle =>
                    split at hdec
                    · have hw : chars "warn" = t := by simpa using hdec
                      exact Or.inl hw.symm
                    · split at hdec
                      · have hw : chars "bad" = t := by simpa using hdec
                        exact Or.inr (Or.inl hw.symm)
                      · have hv : 0 ≤ number := le_of_lt (not_le.mp hle)
                        refine Or.inr (Or.inr (Or.inr
                          ⟨rhe ((roundTo 4 number) * 100), rhe_nonneg ?_, ?_⟩))
                        · have hv0 : 0 ≤ roundTo 4 number := by
                            unfold roundTo
                            apply div_nonneg
                            · exact_mod_cast rhe_nonneg
                                (mul_nonneg hv (by positivity))
                            · positivity
                          exact mul_nonneg hv0 (by norm_num)
                        · have ht : chars "ok" ++ ':' :: formatHours number = t := by
                            simpa using hdec
                          rw [← ht, formatHours_eq hv]
                · simp at hdec)

/-- C2 (amended): the workload cell decoder canonicalizes 4/"4h"/"warn"/
"orange" to "warn", 8/"8h"/"bad"/"rouge" to "bad", bare "ok" to "ok"; every
other positive integer n decodes to "ok:" followed by str(n); and every
other positive float value with at most two fractional decimal digits
decodes to "ok:" followed by its minimal decimal rendering.  (Payloads
needing more than two fractional digits are first rounded half-to-even to
two decimals by the `:.2f` formatting in `_format_hours`, so the original
claim's "minimum digits needed" reading fails for them; see the
counterexample.) -/
theorem workload_decode_canonicalization (r c : ℕ) :
    (normalizeWorkloadCell (.int 4) r c = .ok (some (chars "warn")) ∧
     normalizeWorkloadCell (.str (chars "4h")) r c = .ok (some (chars "warn")) ∧
     normalizeWorkloadCell (.str (chars "warn")) r c = .ok (some (chars "warn")) ∧
     normalizeWorkloadCell (.str (chars "orange")) r c = .ok (some (chars "warn"))) ∧
    (normalizeWorkloadCell (.int 8) r c = .ok (some (chars "bad")) ∧
     normalizeWorkloadCell (.str (chars "8h")) r c = .ok (some (chars "bad")) ∧
     normalizeWorkloadCell (.str (chars "bad")) r c = .ok (some (chars "bad")) ∧
     normalizeWorkloadCell (.str (chars "rouge")) r c = .ok (some (chars "bad"))) ∧
    normalizeWorkloadCell (.str (chars "ok")) r c = .ok (some (chars "ok")) ∧
    (∀ n : ℤ, 0 < n → n ≠ 4 → n ≠ 8 →
      normalizeWorkloadCell (.int n) r c =
        .ok (some (chars "ok" ++ ':' :: intRender n))) ∧
    (∀ m : ℤ, ∀ k : ℕ, k ≤ 2 → 0 < m →
      (m : ℚ) / 10 ^ k ≠ 4 → (m : ℚ) / 10 ^ k ≠ 8 →
      normalizeWorkloadCell (.float m k) r c =
        .ok (some (chars "ok" ++ ':' :: decRenderMinimal m k))) := by
  refine ⟨⟨rfl, rfl, rfl, rfl⟩, ⟨rfl, rfl, rfl, rfl⟩, rfl, ?_, ?_⟩
  · intro n hpos h4 h8
    exact decode_int n r c hpos h4 h8
  · intro m k hk hm h4 h8
    exact decode_float m k r c hk hm h4 h8

/-- C2 counterexample: the float 2.125 needs three fractional digits, but
the decoder formats the rounded payload with `:.2f`, producing "ok:2.12"
rather than the minimally rendered "ok:2.125" the claim requires. -/
theorem workload_decode_two_decimal_rounding :
    normalizeWorkloadCell (.float 2125 3) 2 3 = .ok (some (chars "ok:2.12")) ∧
    chars "ok:2.12" ≠ chars "ok:2.125" :=
  ⟨by with_unfolding_all decide, by decide⟩

/-- Witness for C2: the amended theorem applied to the concrete inputs 6
and 2.5 yields "ok:6" and "ok:2.5". -/
theorem workload_decode_canonicalization_witness :
    normalizeWorkloadCell (.int 6) 2 3 = .ok (some (chars "ok:6")) ∧
    normalizeWorkloadCell (.float 25 1) 2 3 = .ok (some (chars "ok:2.5")) := by
  have h := workload_decode_canonicalization 2 3
  constructor
  · have h6 := h.2.2.2.1 6 (by norm_num) (by norm_num) (by norm_num)
    rw [h6]
    decide
  · have h25 := h.2.2.2.2 25 1 (by norm_num) (by norm_num)
      (by norm_num) (by norm_num)
    rw [h25]
    decide

/-- C4 (amended): exporting maps "bad" to the number 8, "warn" to the
number 4, and every other token through unchanged; re-decoding the
exported cell reproduces the identical token for every decoder-produced
token except the reachable token "ok:0", for which re-decoding raises
instead (see the counterexample). -/
theorem workload_export_roundtrip (raw : WRaw) (r c : ℕ) (t : Str)
    (hdec : normalizeWorkloadCell raw r c = .ok (some t))
    (hne : t ≠ chars "ok:0") :
    exportValue (chars "bad") = .i 8 ∧ exportValue (chars "warn") = .i 4 ∧
    (t ≠ chars "bad" → t ≠ chars "warn" → exportValue t = .s t) ∧
    normalizeWorkloadCell (exportRaw (exportValue t)) r c = .ok (some t) := by
  refine ⟨rfl, rfl, ?_, ?_⟩
  · intro hb hw
    unfold exportValue
    rw [if_neg hb, if_neg hw]
  · rcases decode_image raw r c t hdec with h | h | h | ⟨V, hVnn, hV⟩
    · subst h
      with_unfolding_all rfl
    · subst h
      with_unfolding_all rfl
    · subst h
      with_unfolding_all rfl
    · subst hV
      have hVne : V ≠ 0 := fun h0 => hne (by rw [h0]; with_unfolding_all decide)
      have hVpos : 0 < V := lt_of_le_of_ne hVnn (Ne.symm hVne)
      have htb : chars "ok" ++ ':' :: decRenderMinimal V 2 ≠ chars "bad" :=
        fun heq => by
          have h0 : ('o' : Char) = 'b' := congrArg (fun l => l.headD 'x') heq
          exact absurd h0 (by decide)
      have htw : chars "ok" ++ ':' :: decRenderMinimal V 2 ≠ chars "warn" :=
        fun heq => by
          have h0 : ('o' : Char) = 'w' := congrArg (fun l => l.headD 'x') heq
          exact absurd h0 (by decide)
      rw [show exportValue (chars "ok" ++ ':' :: decRenderMinimal V 2) =
          ExportVal.s (chars "ok" ++ ':' :: decRenderMinimal V 2) from by
        unfold exportValue
        rw [if_neg htb, if_neg htw]]
      rw [show exportRaw (ExportVal.s (chars "ok" ++ ':' :: decRenderMinimal V 2)) =
        WRaw.str (chars "ok" ++ ':' :: decRenderMinimal V 2) from rfl]
      exact decode_ok_token r c hVpos

/-- C4 counterexample: decoding "ok:0.001" produces the token "ok:0"
(the payload rounds down to "0"), and re-decoding the exported "ok:0"
raises because its hours value is not positive, so this decoder-produced
token does not round-trip. -/
theorem workload_export_zero_failure :
    normalizeWorkloadCell (.str (chars "ok:0.001")) 2 3 = .ok (some (chars "ok:0")) ∧
    exportValue (chars "ok:0") = .s (chars "ok:0") ∧
    normalizeWorkloadCell (exportRaw (exportValue (chars "ok:0"))) 2 3 =
      .error (chars "Ligne 2, colonne C: valeur \x270\x27 invalide. Utilisez bad, warn ou ok:4.") :=
  ⟨by with_unfolding_all decide, by decide, by with_unfolding_all decide⟩

/-- Witness for C4: the token "ok:2.5" produced by decoding "ok : 2,5 h"
is exported as the same string and decodes back to itself. -/
theorem workload_export_roundtrip_witness :
    normalizeWorkloadCell (exportRaw (exportValue (chars "ok:2.5"))) 2 3 =
      .ok (some (chars "ok:2.5")) :=
  (workload_export_roundtrip (.str (chars "ok : 2,5 h")) 2 3 (chars "ok:2.5")
    (by with_unfolding_all decide) (by decide)).2.2.2

end Crm
